import Mathlib

/-!
Verification of the TBF (Tock Binary Format) header/footer codec
(`tockloader/tbfh.py`), shallowly embedded in Lean.

Byte buffers are `List Nat` (each byte `< 256` in well-formed buffers);
multi-byte fields are little-endian.  Python's in-place mutation is
modelled by returning an updated structure; code paths that raise an
exception return `Except.error`.
-/

namespace Tbfh

/-- `struct.unpack("<H", b[0:2])`.  A buffer shorter than 2 bytes is read
with zero padding (Python would raise `struct.error`; every read modelled
here is guarded by a length check in the source). -/
def u16 : List Nat → Nat
  | b0 :: b1 :: _ => b0 + 256 * b1
  | [b0] => b0
  | [] => 0

/-- `struct.unpack("<I", b[0:4])`, zero-padded like `u16`. -/
def u32 : List Nat → Nat
  | b0 :: b1 :: b2 :: b3 :: _ => b0 + 256 * b1 + 65536 * b2 + 16777216 * b3
  | [b0, b1, b2] => b0 + 256 * b1 + 65536 * b2
  | [b0, b1] => b0 + 256 * b1
  | [b0] => b0
  | [] => 0

/-- `struct.pack("<H", n)`. -/
def le16 (n : Nat) : List Nat := [n % 256, n / 256 % 256]

/-- `struct.pack("<I", n)`. -/
def le32 (n : Nat) : List Nat :=
  [n % 256, n / 256 % 256, n / 65536 % 256, n / 16777216 % 256]

/-- `roundup` from tbfh.py (`to` is a Lean keyword, hence `m`). -/
def roundup (x m : Nat) : Nat := if x % m == 0 then x else x + m - x % m

/-- XOR-fold of little-endian 32-bit words; a trailing chunk shorter than 4
bytes is read with zero padding, exactly as `_checksum` zero-pads the buffer
to a multiple of 4 before folding. -/
def xorWords : List Nat → Nat
  | b0 :: b1 :: b2 :: b3 :: rest =>
      (b0 + 256 * b1 + 65536 * b2 + 16777216 * b3) ^^^ xorWords rest
  | l => u32 l

/-- `TBFHeader._checksum`. -/
def checksum (buffer : List Nat) : Nat := xorWords buffer

/-- `struct.pack_into` at byte offset `i`. -/
def writeBytesAt (l : List Nat) (i : Nat) (bs : List Nat) : List Nat :=
  l.take i ++ bs ++ l.drop (i + bs.length)

/-- `int.from_bytes(b, "big")`. -/
def beBytesToNat (b : List Nat) : Nat := b.foldl (fun acc x => acc * 256 + x) 0

/-! ## TLV records (`TBFTLV*` classes)

Python leaves the data attributes of a record unset when the buffer length
check fails (reading them would raise `AttributeError`); here they are `0`
placeholders while `valid := false` records that field access is refused. -/

structure TBFTLVMain where
  valid : Bool
  init_fn_offset : Nat
  protected_size : Nat
  minimum_ram_size : Nat
deriving DecidableEq

def TBFTLVMain.init (buffer : List Nat) : TBFTLVMain :=
  if buffer.length == 12 then
    { valid := true, init_fn_offset := u32 buffer,
      protected_size := u32 (buffer.drop 4), minimum_ram_size := u32 (buffer.drop 8) }
  else
    { valid := false, init_fn_offset := 0, protected_size := 0, minimum_ram_size := 0 }

def TBFTLVMain.pack (t : TBFTLVMain) : List Nat :=
  le16 1 ++ le16 12 ++ le32 t.init_fn_offset ++ le32 t.protected_size ++
    le32 t.minimum_ram_size

structure TBFTLVProgram where
  valid : Bool
  init_fn_offset : Nat
  protected_size : Nat
  minimum_ram_size : Nat
  binary_end_offset : Nat
  app_version : Nat
deriving DecidableEq

def TBFTLVProgram.init (buffer : List Nat) : TBFTLVProgram :=
  if buffer.length == 20 then
    { valid := true, init_fn_offset := u32 buffer,
      protected_size := u32 (buffer.drop 4), minimum_ram_size := u32 (buffer.drop 8),
      binary_end_offset := u32 (buffer.drop 12), app_version := u32 (buffer.drop 16) }
  else
    { valid := false, init_fn_offset := 0, protected_size := 0,
      minimum_ram_size := 0, binary_end_offset := 0, app_version := 0 }

def TBFTLVProgram.pack (t : TBFTLVProgram) : List Nat :=
  le16 9 ++ le16 20 ++ le32 t.init_fn_offset ++ le32 t.protected_size ++
    le32 t.minimum_ram_size ++ le32 t.binary_end_offset ++ le32 t.app_version

structure TBFTLVWriteableFlashRegions where
  valid : Bool
  writeable_flash_regions : List (Nat × Nat)
deriving DecidableEq

/-- The `(offset, length)` pairs: `struct.unpack("<II", buffer[i*8:(i+1)*8])`. -/
def parseWfrPairs : Nat → List Nat → List (Nat × Nat)
  | 0, _ => []
  | n + 1, b => (u32 b, u32 (b.drop 4)) :: parseWfrPairs n (b.drop 8)

/-- The constructor sets `valid = False` and never revisits it; when the
length is not a multiple of 8 Python also leaves `writeable_flash_regions`
unset (`[]` placeholder here). -/
def TBFTLVWriteableFlashRegions.init (buffer : List Nat) : TBFTLVWriteableFlashRegions :=
  { valid := false,
    writeable_flash_regions :=
      if buffer.length % 8 == 0 then parseWfrPairs (buffer.length / 8) buffer else [] }

def TBFTLVWriteableFlashRegions.pack (t : TBFTLVWriteableFlashRegions) : List Nat :=
  le16 2 ++ le16 (t.writeable_flash_regions.length * 8) ++
    (t.writeable_flash_regions.map (fun p => le32 p.1 ++ le32 p.2)).flatten

/-- `package_name` holds the UTF-8 encoded bytes; Python stores the decoded
string and re-encodes it in `pack`, which is the identity on the underlying
bytes for valid UTF-8 (invalid UTF-8 would raise in the Python constructor). -/
structure TBFTLVPackageName where
  valid : Bool
  package_name : List Nat
deriving DecidableEq

def TBFTLVPackageName.init (buffer : List Nat) : TBFTLVPackageName :=
  { valid := true, package_name := buffer }

def TBFTLVPackageName.pack (t : TBFTLVPackageName) : List Nat :=
  le16 3 ++ le16 t.package_name.length ++ t.package_name ++
    List.replicate (roundup t.package_name.length 4 - t.package_name.length) 0

structure TBFTLVPicOption1 where
  valid : Bool
  text_offset : Nat
  data_offset : Nat
  data_size : Nat
  bss_memory_offset : Nat
  bss_size : Nat
  relocation_data_offset : Nat
  relocation_data_size : Nat
  got_offset : Nat
  got_size : Nat
  minimum_stack_length : Nat
deriving DecidableEq

def TBFTLVPicOption1.init (buffer : List Nat) : TBFTLVPicOption1 :=
  if buffer.length == 40 then
    { valid := true, text_offset := u32 buffer, data_offset := u32 (buffer.drop 4),
      data_size := u32 (buffer.drop 8), bss_memory_offset := u32 (buffer.drop 12),
      bss_size := u32 (buffer.drop 16), relocation_data_offset := u32 (buffer.drop 20),
      relocation_data_size := u32 (buffer.drop 24), got_offset := u32 (buffer.drop 28),
      got_size := u32 (buffer.drop 32), minimum_stack_length := u32 (buffer.drop 36) }
  else
    { valid := false, text_offset := 0, data_offset := 0, data_size := 0,
      bss_memory_offset := 0, bss_size := 0, relocation_data_offset := 0,
      relocation_data_size := 0, got_offset := 0, got_size := 0,
      minimum_stack_length := 0 }

def TBFTLVPicOption1.pack (t : TBFTLVPicOption1) : List Nat :=
  le16 4 ++ le16 40 ++ le32 t.text_offset ++ le32 t.data_offset ++
    le32 t.data_size ++ le32 t.bss_memory_offset ++ le32 t.bss_size ++
    le32 t.relocation_data_offset ++ le32 t.relocation_data_size ++
    le32 t.got_offset ++ le32 t.got_size ++ le32 t.minimum_stack_length

structure TBFTLVFixedAddress where
  valid : Bool
  fixed_address_ram : Nat
  fixed_address_flash : Nat
deriving DecidableEq

def TBFTLVFixedAddress.init (buffer : List Nat) : TBFTLVFixedAddress :=
  if buffer.length == 8 then
    { valid := true, fixed_address_ram := u32 buffer,
      fixed_address_flash := u32 (buffer.drop 4) }
  else
    { valid := false, fixed_address_ram := 0, fixed_address_flash := 0 }

def TBFTLVFixedAddress.pack (t : TBFTLVFixedAddress) : List Nat :=
  le16 5 ++ le16 8 ++ le32 t.fixed_address_ram ++ le32 t.fixed_address_flash

structure TBFTLVKernelVersion where
  valid : Bool
  kernel_major : Nat
  kernel_minor : Nat
deriving DecidableEq

def TBFTLVKernelVersion.init (buffer : List Nat) : TBFTLVKernelVersion :=
  if buffer.length == 4 then
    { valid := true, kernel_major := u16 buffer, kernel_minor := u16 (buffer.drop 2) }
  else
    { valid := false, kernel_major := 0, kernel_minor := 0 }

def TBFTLVKernelVersion.pack (t : TBFTLVKernelVersion) : List Nat :=
  le16 8 ++ le16 4 ++ le16 t.kernel_major ++ le16 t.kernel_minor

structure TBFTLVUnknown where
  tipe : Nat
  buffer : List Nat
deriving DecidableEq

def TBFTLVUnknown.pack (t : TBFTLVUnknown) : List Nat :=
  let out := le16 t.tipe ++ le16 t.buffer.length ++ t.buffer
  out ++ List.replicate ((4 - out.length % 4) % 4) 0

/-- The polymorphic TLV record (base class `TBFTLV` and its subclasses). -/
inductive TBFTLV where
  | main : TBFTLVMain → TBFTLV
  | program : TBFTLVProgram → TBFTLV
  | writeableFlashRegions : TBFTLVWriteableFlashRegions → TBFTLV
  | packageName : TBFTLVPackageName → TBFTLV
  | picOption1 : TBFTLVPicOption1 → TBFTLV
  | fixedAddress : TBFTLVFixedAddress → TBFTLV
  | kernelVersion : TBFTLVKernelVersion → TBFTLV
  | unknown : TBFTLVUnknown → TBFTLV
deriving DecidableEq

def TBFTLV.get_tlvid : TBFTLV → Nat
  | .main _ => 1
  | .program _ => 9
  | .writeableFlashRegions _ => 2
  | .packageName _ => 3
  | .picOption1 _ => 4
  | .fixedAddress _ => 5
  | .kernelVersion _ => 8
  | .unknown t => t.tipe

def TBFTLV.pack : TBFTLV → List Nat
  | .main t => t.pack
  | .program t => t.pack
  | .writeableFlashRegions t => t.pack
  | .packageName t => t.pack
  | .picOption1 t => t.pack
  | .fixedAddress t => t.pack
  | .kernelVersion t => t.pack
  | .unknown t => t.pack

def TBFTLV.get_size (t : TBFTLV) : Nat := t.pack.length

/-! ## Header base fields (`self.fields` dict)

An ordered association list; Python dict assignment replaces the value at an
existing key in place or appends a new key. -/

def dget (fs : List (String × Nat)) (k : String) : Nat := ((fs.lookup k).getD 0)

def dmem (fs : List (String × Nat)) (k : String) : Bool := (fs.lookup k).isSome

def dset (fs : List (String × Nat)) (k : String) (v : Nat) : List (String × Nat) :=
  match fs with
  | [] => [(k, v)]
  | p :: rest => if p.1 == k then (k, v) :: rest else p :: dset rest k v

/-! ## The version-2 TLV parse loop (`TBFHeader.__init__`) -/

/-- One dispatch step of the parse loop, after the 4-byte `(type, length)`
prefix has been read: the list of records appended for this entry (`[]` when
the entry is skipped).  `rem1` is `remaining` after the `remaining -= 4`. -/
def parseTlvEntry (tipe length rem1 : Nat) (buf1 : List Nat) : List TBFTLV :=
  if tipe == 1 then
    if rem1 ≥ 12 ∧ length == 12 then [.main (TBFTLVMain.init (buf1.take 12))] else []
  else if tipe == 9 then
    if rem1 ≥ 20 ∧ length == 20 then [.program (TBFTLVProgram.init (buf1.take 20))] else []
  else if tipe == 2 then
    if rem1 ≥ length then
      [.writeableFlashRegions (TBFTLVWriteableFlashRegions.init (buf1.take length))]
    else []
  else if tipe == 3 then
    if rem1 ≥ length then [.packageName (TBFTLVPackageName.init (buf1.take length))] else []
  else if tipe == 4 then
    if rem1 ≥ 40 ∧ length == 40 then [.picOption1 (TBFTLVPicOption1.init (buf1.take 40))] else []
  else if tipe == 5 then
    if rem1 ≥ 8 ∧ length == 8 then [.fixedAddress (TBFTLVFixedAddress.init (buf1.take 8))] else []
  else if tipe == 8 then
    if rem1 ≥ 4 ∧ length == 4 then [.kernelVersion (TBFTLVKernelVersion.init (buf1.take 4))] else []
  else
    [.unknown ⟨tipe, buf1.take length⟩]

/-- The `while remaining >= 4` loop.  `fuel` only bounds the iteration count
so that the recursion is structural (and hence kernel-reducible): every
iteration consumes at least 4 from `remaining`, so `fuel := remaining` is
always enough (`parseTlvGo_fuel` below). -/
def parseTlvGo : Nat → List Nat → Nat → List TBFTLV
  | 0, _, _ => []
  | fuel + 1, buffer, remaining =>
    if remaining ≥ 4 then
      let tipe := u16 buffer
      let length := u16 (buffer.drop 2)
      let buf1 := buffer.drop 4
      let rem1 := remaining - 4
      parseTlvEntry tipe length rem1 buf1 ++
        parseTlvGo fuel (buf1.drop (roundup length 4)) (rem1 - roundup length 4)
    else []

def parseTlvLoop (buffer : List Nat) (remaining : Nat) : List TBFTLV :=
  parseTlvGo remaining buffer remaining

/-! ## `TBFHeader` -/

structure TBFHeader where
  version : Nat
  valid : Bool
  app : Bool
  modified : Bool
  fields : List (String × Nat)
  tlvs : List TBFTLV
deriving DecidableEq

/-- `TBFHeader.__init__`.  A buffer shorter than 2 bytes leaves `version`
unset in Python (reading it would raise); `0` is the placeholder. -/
def TBFHeader.init (buffer : List Nat) : TBFHeader :=
  if buffer.length < 2 then
    { version := 0, valid := false, app := false, modified := false, fields := [], tlvs := [] }
  else
    let version := u16 buffer
    let b2 := buffer.drop 2
    if version == 1 ∧ b2.length ≥ 74 then
      let ck := checksum (buffer.take 72)
      let b4 := b2.drop 2
      let fields : List (String × Nat) :=
        [("total_size", u32 b4), ("entry_offset", u32 (b4.drop 4)),
         ("rel_data_offset", u32 (b4.drop 8)), ("rel_data_size", u32 (b4.drop 12)),
         ("text_offset", u32 (b4.drop 16)), ("text_size", u32 (b4.drop 20)),
         ("got_offset", u32 (b4.drop 24)), ("got_size", u32 (b4.drop 28)),
         ("data_offset", u32 (b4.drop 32)), ("data_size", u32 (b4.drop 36)),
         ("bss_mem_offset", u32 (b4.drop 40)), ("bss_mem_size", u32 (b4.drop 44)),
         ("min_stack_len", u32 (b4.drop 48)), ("min_app_heap_len", u32 (b4.drop 52)),
         ("min_kernel_heap_len", u32 (b4.drop 56)), ("package_name_offset", u32 (b4.drop 60)),
         ("package_name_size", u32 (b4.drop 64)), ("checksum", u32 (b4.drop 68))]
      { version := 1, valid := ck == u32 (b4.drop 68), app := true, modified := false,
        fields := fields, tlvs := [] }
    else if version == 2 ∧ b2.length ≥ 14 then
      let header_size := u16 b2
      let total_size := u32 (b2.drop 2)
      let flags := u32 (b2.drop 6)
      let stored := u32 (b2.drop 10)
      let fields : List (String × Nat) :=
        [("header_size", header_size), ("total_size", total_size),
         ("flags", flags), ("checksum", stored)]
      if buffer.length ≥ header_size ∧ header_size ≥ 16 then
        let computed := checksum (writeBytesAt (buffer.take header_size) 12 (le32 0))
        let remaining := header_size - 16
        let b16 := buffer.drop 16
        if remaining > 0 ∧ b16.length ≥ remaining then
          -- Application slot: the header is marked valid whether or not the
          -- recomputed checksum matches (a mismatch is only logged).
          { version := 2, valid := true, app := true, modified := false,
            fields := fields, tlvs := parseTlvLoop b16 remaining }
        else
          -- Padding slot: validity is the checksum comparison.
          { version := 2, valid := computed == stored, app := false,
            modified := false, fields := fields, tlvs := [] }
      else
        { version := 2, valid := false, app := false, modified := false,
          fields := fields, tlvs := [] }
    else
      { version := version, valid := false, app := false, modified := false,
        fields := [], tlvs := [] }

def TBFHeader._get_tlv (h : TBFHeader) (tlvid : Nat) : Option TBFTLV :=
  h.tlvs.find? (fun t => t.get_tlvid == tlvid)

def TBFHeader._get_binary_tlv (h : TBFHeader) : Option TBFTLV :=
  match h._get_tlv 9 with
  | some t => some t
  | none => h._get_tlv 1

/-- `.protected_size` of a Main/Program record.  `_get_binary_tlv` only ever
returns those two variants, so the default `0` is unreachable in the Python
code paths modelled here. -/
def protOf : TBFTLV → Nat
  | .main t => t.protected_size
  | .program t => t.protected_size
  | _ => 0

/-- `.init_fn_offset` of a Main/Program record (default unreachable, as above). -/
def initFnOf : TBFTLV → Nat
  | .main t => t.init_fn_offset
  | .program t => t.init_fn_offset
  | _ => 0

/-- `.fixed_address_flash` of a FixedAddress record (default unreachable). -/
def flashOf : TBFTLV → Nat
  | .fixedAddress t => t.fixed_address_flash
  | _ => 0

def isBinaryRecord : TBFTLV → Bool
  | .main _ => true
  | .program _ => true
  | _ => false

/-- `.minimum_ram_size` of a Main/Program record (a frame observation;
default unreachable, as above). -/
def ramOf : TBFTLV → Nat
  | .main t => t.minimum_ram_size
  | .program t => t.minimum_ram_size
  | _ => 0

/-- `.binary_end_offset` of a Program record (default unreachable). -/
def binEndOf : TBFTLV → Nat
  | .program t => t.binary_end_offset
  | _ => 0

/-- `.app_version` of a Program record (default unreachable). -/
def appVerOf : TBFTLV → Nat
  | .program t => t.app_version
  | _ => 0

/-- The record's `valid` flag.  (`TBFTLVUnknown` never assigns `valid` in the
source; its arm is a placeholder only ever applied to Main/Program records
here.) -/
def tlvValidOf : TBFTLV → Bool
  | .main t => t.valid
  | .program t => t.valid
  | .writeableFlashRegions t => t.valid
  | .packageName t => t.valid
  | .picOption1 t => t.valid
  | .fixedAddress t => t.valid
  | .kernelVersion t => t.valid
  | .unknown _ => true

/-- `TBFHeader.get_binary`.  For a version that is neither 1 nor 2 the
Python code raises (`buf` is unbound); `[]` is the placeholder. -/
def TBFHeader.get_binary (h : TBFHeader) : List Nat :=
  if h.version == 1 then
    let buf :=
      le32 h.version ++ le32 (dget h.fields "total_size") ++
      le32 (dget h.fields "entry_offset") ++ le32 (dget h.fields "rel_data_offset") ++
      le32 (dget h.fields "rel_data_size") ++ le32 (dget h.fields "text_offset") ++
      le32 (dget h.fields "text_size") ++ le32 (dget h.fields "got_offset") ++
      le32 (dget h.fields "got_size") ++ le32 (dget h.fields "data_offset") ++
      le32 (dget h.fields "data_size") ++ le32 (dget h.fields "bss_mem_offset") ++
      le32 (dget h.fields "bss_mem_size") ++ le32 (dget h.fields "min_stack_len") ++
      le32 (dget h.fields "min_app_heap_len") ++ le32 (dget h.fields "min_kernel_heap_len") ++
      le32 (dget h.fields "package_name_offset") ++ le32 (dget h.fields "package_name_size")
    buf ++ le32 (checksum buf)
  else if h.version == 2 then
    let buf :=
      le16 h.version ++ le16 (dget h.fields "header_size") ++
      le32 (dget h.fields "total_size") ++ le32 (dget h.fields "flags") ++ le32 0
    let buf := buf ++ (if h.app then (h.tlvs.map TBFTLV.pack).flatten else [])
    let buf := writeBytesAt buf 12 (le32 (checksum buf))
    match h._get_binary_tlv with
    | some t => if protOf t > 0 then buf ++ List.replicate (protOf t) 0 else buf
    | none => buf
  else []

/-! ## Mutators -/

/-- `TBFHeader.set_flag`.  Guarded: a no-op on version-1 or invalid headers. -/
def TBFHeader.set_flag (h : TBFHeader) (flag_name : String) (flag_value : Bool) : TBFHeader :=
  if h.version == 1 ∨ h.valid = false then h
  else if flag_name == "enable" then
    let f := dget h.fields "flags"
    let fNew := if flag_value then f ||| 1 else f - (f &&& 1)
    { h with fields := dset h.fields "flags" fNew, modified := true }
  else if flag_name == "sticky" then
    let f := dget h.fields "flags"
    let fNew := if flag_value then f ||| 2 else f - (f &&& 2)
    { h with fields := dset h.fields "flags" fNew, modified := true }
  else h

/-- `TBFHeader.set_app_size`.  Note: unlike `set_flag`, there is no
version/validity guard in the source. -/
def TBFHeader.set_app_size (h : TBFHeader) (size : Nat) : TBFHeader :=
  { h with fields := dset h.fields "total_size" size, modified := true }

/-- Mutate the first record satisfying `p` in place (Python finds the object
and mutates it through the reference). -/
def updFirst (p : TBFTLV → Bool) (f : TBFTLV → TBFTLV) : List TBFTLV → List TBFTLV
  | [] => []
  | t :: ts => if p t then f t :: ts else t :: updFirst p f ts

/-- `tlv.protected_size += size; tlv.init_fn_offset += size` on a Main or
Program record.  (On a record of another class with the same TLV id Python
would raise `AttributeError`; such records never arise from parsing.) -/
def bumpMainProgramFields (size : Nat) : TBFTLV → TBFTLV
  | .main t => .main { t with protected_size := t.protected_size + size,
                              init_fn_offset := t.init_fn_offset + size }
  | .program t => .program { t with protected_size := t.protected_size + size,
                                    init_fn_offset := t.init_fn_offset + size }
  | t => t

/-- Sum of `get_size()` over the TLVs matching `tlvid` (the `size`
accumulated by `delete_tlv`). -/
def tlvDeleteSize (h : TBFHeader) (tlvid : Nat) : Nat :=
  ((h.tlvs.filter (fun t => t.get_tlvid == tlvid)).map TBFTLV.get_size).sum

/-- `TBFHeader.delete_tlv`.  No version/validity guard in the source; on a
header without a `header_size` base field (e.g. version 1) the line
`self.fields["header_size"] -= size` raises `KeyError`.  `header_size - size`
is a truncated `Nat` subtraction; Python's value cannot go negative for
headers whose TLVs were parsed out of the header itself. -/
def TBFHeader.delete_tlv (h : TBFHeader) (tlvid : Nat) : Except String TBFHeader :=
  let matched := h.tlvs.filter (fun t => t.get_tlvid == tlvid)
  let size := (matched.map TBFTLV.get_size).sum
  let kept := h.tlvs.filter (fun t => !(t.get_tlvid == tlvid))
  let modifiedNew := if matched.isEmpty then h.modified else true
  if dmem h.fields "header_size" then
    Except.ok
      { h with
        fields := dset h.fields "header_size" (dget h.fields "header_size" - size),
        modified := modifiedNew,
        tlvs := updFirst (fun t => t.get_tlvid == 9) (bumpMainProgramFields size)
                  (updFirst (fun t => t.get_tlvid == 1) (bumpMainProgramFields size) kept) }
  else Except.error "KeyError: header_size"

/-- Which per-variant data attributes `modify_tlv` can set.  This covers the
numeric fields assigned in each `__init__` (Python's `getattr` would also
find `valid`, class attributes and methods; the claims only exercise the
data fields). -/
def tlvHasField : TBFTLV → String → Bool
  | .main _, f => f == "init_fn_offset" || f == "protected_size" || f == "minimum_ram_size"
  | .program _, f => f == "init_fn_offset" || f == "protected_size" ||
      f == "minimum_ram_size" || f == "binary_end_offset" || f == "app_version"
  | .picOption1 _, f => f == "text_offset" || f == "data_offset" || f == "data_size" ||
      f == "bss_memory_offset" || f == "bss_size" || f == "relocation_data_offset" ||
      f == "relocation_data_size" || f == "got_offset" || f == "got_size" ||
      f == "minimum_stack_length"
  | .fixedAddress _, f => f == "fixed_address_ram" || f == "fixed_address_flash"
  | .kernelVersion _, f => f == "kernel_major" || f == "kernel_minor"
  | .unknown _, f => f == "tipe"
  | _, _ => false

def tlvSetField (t : TBFTLV) (f : String) (v : Nat) : TBFTLV :=
  match t with
  | .main t =>
    .main { t with
      init_fn_offset := if f == "init_fn_offset" then v else t.init_fn_offset,
      protected_size := if f == "protected_size" then v else t.protected_size,
      minimum_ram_size := if f == "minimum_ram_size" then v else t.minimum_ram_size }
  | .program t =>
    .program { t with
      init_fn_offset := if f == "init_fn_offset" then v else t.init_fn_offset,
      protected_size := if f == "protected_size" then v else t.protected_size,
      minimum_ram_size := if f == "minimum_ram_size" then v else t.minimum_ram_size,
      binary_end_offset := if f == "binary_end_offset" then v else t.binary_end_offset,
      app_version := if f == "app_version" then v else t.app_version }
  | .picOption1 t =>
    .picOption1 { t with
      text_offset := if f == "text_offset" then v else t.text_offset,
      data_offset := if f == "data_offset" then v else t.data_offset,
      data_size := if f == "data_size" then v else t.data_size,
      bss_memory_offset := if f == "bss_memory_offset" then v else t.bss_memory_offset,
      bss_size := if f == "bss_size" then v else t.bss_size,
      relocation_data_offset := if f == "relocation_data_offset" then v else t.relocation_data_offset,
      relocation_data_size := if f == "relocation_data_size" then v else t.relocation_data_size,
      got_offset := if f == "got_offset" then v else t.got_offset,
      got_size := if f == "got_size" then v else t.got_size,
      minimum_stack_length := if f == "minimum_stack_length" then v else t.minimum_stack_length }
  | .fixedAddress t =>
    .fixedAddress { t with
      fixed_address_ram := if f == "fixed_address_ram" then v else t.fixed_address_ram,
      fixed_address_flash := if f == "fixed_address_flash" then v else t.fixed_address_flash }
  | .kernelVersion t =>
    .kernelVersion { t with
      kernel_major := if f == "kernel_major" then v else t.kernel_major,
      kernel_minor := if f == "kernel_minor" then v else t.kernel_minor }
  | .unknown t => .unknown { t with tipe := if f == "tipe" then v else t.tipe }
  | t => t

/-- The loop of `modify_tlv`: sets `field` on every TLV matching the id;
`none` models the `TockLoaderException` raised when a matching TLV lacks the
field.  The returned `Bool` is whether any TLV matched (i.e. whether
`self.modified = True` ran). -/
def modifyTlvList : List TBFTLV → Nat → String → Nat → Option (List TBFTLV × Bool)
  | [], _, _, _ => some ([], false)
  | t :: ts, tlvid, f, v =>
    if t.get_tlvid == tlvid then
      if tlvHasField t f then
        match modifyTlvList ts tlvid f v with
        | some (ts', _) => some (tlvSetField t f v :: ts', true)
        | none => none
      else none
    else
      match modifyTlvList ts tlvid f v with
      | some (ts', m) => some (t :: ts', m)
      | none => none

/-- `TBFHeader.modify_tlv`.  Note: the base-fields branch (`tlvid == 0`)
does not set `self.modified` in the source. -/
def TBFHeader.modify_tlv (h : TBFHeader) (tlvid : Nat) (field : String) (value : Nat) :
    Except String TBFHeader :=
  if tlvid == 0 then
    Except.ok { h with fields := dset h.fields field value }
  else
    match modifyTlvList h.tlvs tlvid field value with
    | none => Except.error "TockLoaderException: field is not in TLV"
    | some (tlvs', m) => Except.ok { h with tlvs := tlvs', modified := h.modified || m }

/-- `TBFHeader.adjust_starting_address`.  Note: it never sets
`self.modified`.  With a FixedAddress TLV but no Main/Program TLV the source
raises (`None.protected_size`). -/
def TBFHeader.adjust_starting_address (h : TBFHeader) (address : Nat) :
    Except String TBFHeader :=
  match h._get_tlv 5 with
  | none => Except.ok h
  | some tlv_fixed_addr =>
    match h._get_binary_tlv with
    | none => Except.error "AttributeError: NoneType has no attribute protected_size"
    | some tlv_program =>
      let target := flashOf tlv_fixed_addr
      let current := address + dget h.fields "header_size" + protOf tlv_program
      if current == target then Except.ok h
      else if current < target then
        let delta := target - current
        let p : TBFTLV → Bool :=
          fun t => t.get_tlvid == (if (h._get_tlv 9).isSome then 9 else 1)
        Except.ok { h with tlvs := updFirst p (bumpMainProgramFields delta) h.tlvs }
      else Except.error "Cannot shrink the header. This is a tockloader bug."

/-! ## Footer credentials (`TBFFooterTLVCredentials`)

The digest computations (`hashlib`) and the PKCS#1 v1.5 check (`Crypto`)
are external collaborators; they are passed in as opaque functions. -/

structure RSAKey where
  n : Nat
deriving DecidableEq

structure HashFns where
  sha256 : List Nat → List Nat
  sha384 : List Nat → List Nat
  sha512 : List Nat → List Nat
  /-- `Crypto.Signature.pkcs1_15.new(key).verify(SHA512(blob), signature)`
  succeeding: arguments are the key, the integrity blob, the signature. -/
  pkcs1_15_sha512_ok : RSAKey → List Nat → List Nat → Bool

/-- `credentials_type` is `none` when the Python attribute was never
assigned (unrecognized credential type or a too-short buffer); reading it
then would raise `AttributeError`. -/
structure TBFFooterTLVCredentials where
  valid : Bool
  verified : String
  credentials_type : Option Nat
  buffer : List Nat
deriving DecidableEq

/-- `TBFFooterTLVCredentials.verify`. -/
def TBFFooterTLVCredentials.verify (c : TBFFooterTLVCredentials) (H : HashFns)
    (keys : List RSAKey) (integrity_blob : Option (List Nat)) : TBFFooterTLVCredentials :=
  match integrity_blob with
  | none => c
  | some blob =>
    match c.credentials_type with
    | some 6 => { c with verified := if c.buffer == H.sha256 blob then "yes" else "no" }
    | some 7 => { c with verified := if c.buffer == H.sha384 blob then "yes" else "no" }
    | some 8 => { c with verified := if c.buffer == H.sha512 blob then "yes" else "no" }
    | some 3 =>
      let pub_key_n := beBytesToNat (c.buffer.take 512)
      match keys.find? (fun k => k.n == pub_key_n) with
      | some key =>
        { c with verified :=
            if H.pkcs1_15_sha512_ok key blob ((c.buffer.drop 512).take 512)
            then "yes" else "no" }
      | none => c
    | _ => c

/-- `TBFFooterTLVCredentials.__init__`.  Note the length checks in the
source: 64 bytes for SHA256, 96 for SHA384, 128 for SHA512 (the comments
there call these "256 bits (64 bytes)" etc., which misreads the bit counts;
the actual digest lengths are 32/48/64 bytes). -/
def TBFFooterTLVCredentials.init (H : HashFns) (buffer : List Nat)
    (integrity_blob : Option (List Nat)) : TBFFooterTLVCredentials :=
  if buffer.length ≥ 4 then
    let ct := u32 buffer
    let body := buffer.drop 4
    if ct == 0 then
      { valid := true, verified := "unknown", credentials_type := some 0, buffer := body }
    else if ct == 6 then
      TBFFooterTLVCredentials.verify
        { valid := body.length == 64, verified := "unknown",
          credentials_type := some 6, buffer := body } H [] integrity_blob
    else if ct == 7 then
      TBFFooterTLVCredentials.verify
        { valid := body.length == 96, verified := "unknown",
          credentials_type := some 7, buffer := body } H [] integrity_blob
    else if ct == 8 then
      TBFFooterTLVCredentials.verify
        { valid := body.length == 128, verified := "unknown",
          credentials_type := some 8, buffer := body } H [] integrity_blob
    else if ct == 3 then
      { valid := body.length == 1024, verified := "unknown",
        credentials_type := some 3, buffer := body }
    else
      { valid := false, verified := "unknown", credentials_type := none, buffer := [] }
  else
    { valid := false, verified := "unknown", credentials_type := none, buffer := [] }

/-! ## Well-formed version-2 header buffers

`TLVSpec` describes one structurally well-formed on-wire TLV; `encode`
produces its exact byte encoding (which coincides with `pack` of the
corresponding in-range record).  A well-formed v2 header buffer is the
16-byte base prefix followed by the encodings of a list of such TLVs, with
`header_size = 16 + |TLV bytes|`. -/

inductive TLVSpec where
  | mainS (init_fn_offset protected_size minimum_ram_size : Nat)
  | programS (init_fn_offset protected_size minimum_ram_size binary_end_offset app_version : Nat)
  | wfrS (regions : List (Nat × Nat))
  | pkgS (name : List Nat)
  | picS (f0 f1 f2 f3 f4 f5 f6 f7 f8 f9 : Nat)
  | fixedS (ram flash : Nat)
  | kernelS (major minor : Nat)
  | unknownS (tipe : Nat) (body : List Nat)
deriving DecidableEq

/-- The record that parsing the encoding yields. -/
def TLVSpec.toRecord : TLVSpec → TBFTLV
  | .mainS a b c => .main ⟨true, a, b, c⟩
  | .programS a b c d e => .program ⟨true, a, b, c, d, e⟩
  | .wfrS rs => .writeableFlashRegions ⟨false, rs⟩
  | .pkgS nm => .packageName ⟨true, nm⟩
  | .picS a b c d e f g h i j => .picOption1 ⟨true, a, b, c, d, e, f, g, h, i, j⟩
  | .fixedS a b => .fixedAddress ⟨true, a, b⟩
  | .kernelS a b => .kernelVersion ⟨true, a, b⟩
  | .unknownS t body => .unknown ⟨t, body⟩

/-- The on-wire bytes of the TLV (prefix, payload, alignment padding). -/
def TLVSpec.encode (d : TLVSpec) : List Nat := d.toRecord.pack

/-- In-range side conditions making the encoding parse back to `toRecord`:
numeric fields fit their word size, payload bytes are bytes, and an unknown
type id is none of the recognized ids. -/
def TLVSpec.wfb : TLVSpec → Bool
  | .mainS a b c => a < 4294967296 && b < 4294967296 && c < 4294967296
  | .programS a b c d e => a < 4294967296 && b < 4294967296 && c < 4294967296 &&
      d < 4294967296 && e < 4294967296
  | .wfrS rs => rs.all (fun p => p.1 < 4294967296 && p.2 < 4294967296) &&
      8 * rs.length < 65536
  | .pkgS nm => nm.all (fun x => x < 256) && nm.length < 65536
  | .picS a b c d e f g h i j => a < 4294967296 && b < 4294967296 && c < 4294967296 &&
      d < 4294967296 && e < 4294967296 && f < 4294967296 && g < 4294967296 &&
      h < 4294967296 && i < 4294967296 && j < 4294967296
  | .fixedS a b => a < 4294967296 && b < 4294967296
  | .kernelS a b => a < 65536 && b < 65536
  | .unknownS t body => t < 65536 && body.all (fun x => x < 256) &&
      body.length < 65536 && !(t == 1 || t == 2 || t == 3 || t == 4 || t == 5 || t == 8 || t == 9)

def tlvBytes (specs : List TLVSpec) : List Nat := (specs.map TLVSpec.encode).flatten

/-- A version-2 header buffer with the given TLV stream, `total_size`,
`flags` and stored checksum word. -/
def mkHeaderBufferCk (specs : List TLVSpec) (total_size flags ck : Nat) : List Nat :=
  le16 2 ++ le16 (16 + (tlvBytes specs).length) ++ le32 total_size ++ le32 flags ++
    le32 ck ++ tlvBytes specs

/-- The same buffer with its correct checksum (computed with the checksum
word zeroed, as the format prescribes). -/
def mkHeaderBuffer (specs : List TLVSpec) (total_size flags : Nat) : List Nat :=
  mkHeaderBufferCk specs total_size flags
    (checksum (mkHeaderBufferCk specs total_size flags 0))

/-- The `protected_size` padding `get_binary` appends after the header
(`0` when there is no Main/Program TLV). -/
def protPadOf (h : TBFHeader) : Nat :=
  match h._get_binary_tlv with
  | some t => protOf t
  | none => 0

/-- The position of the record `adjust_starting_address` mutates in place:
the first Program TLV when one exists, otherwise the first Main TLV
(`_get_binary_tlv`). -/
def adjustTargetIdx (h : TBFHeader) : Nat :=
  h.tlvs.findIdx (fun t => t.get_tlvid == (if (h._get_tlv 9).isSome then 9 else 1))

/-- Extract the header from a non-raising mutator call, with a fallback. -/
def okOr (e : Except String TBFHeader) (d : TBFHeader) : TBFHeader :=
  match e with
  | .ok h => h
  | .error _ => d

/-- A concrete version-2 application header (Program + FixedAddress TLVs)
used to evaluate the mutators at specific inputs. -/
def exampleAppHeader : TBFHeader :=
  { version := 2, valid := true, app := true, modified := false,
    fields := [("header_size", 52), ("total_size", 512), ("flags", 1), ("checksum", 0)],
    tlvs := [.program ⟨true, 128, 0, 1024, 500, 1⟩,
             .fixedAddress ⟨true, 536870912, 262144⟩] }

/-- A concrete hash-function collaborator for evaluating the credential
code at specific inputs (the real code uses `hashlib`/`Crypto`). -/
def trivialHashFns : HashFns :=
  { sha256 := fun _ => [1, 2], sha384 := fun _ => [3, 4], sha512 := fun _ => [5, 6],
    pkcs1_15_sha512_ok := fun _ _ _ => false }

/-- The digest `verify` recomputes for a hash-type credential. -/
def hashFor (H : HashFns) (ct : Nat) (blob : List Nat) : List Nat :=
  if ct == 6 then H.sha256 blob else if ct == 7 then H.sha384 blob else H.sha512 blob

/-! ## Byte-level lemmas -/

@[simp] theorem le16_length (n : Nat) : (le16 n).length = 2 := rfl

@[simp] theorem le32_length (n : Nat) : (le32 n).length = 4 := rfl

theorem u16_le16 (n : Nat) (r : List Nat) (h : n < 65536) : u16 (le16 n ++ r) = n := by
  simp [le16, u16]; omega

theorem u32_le32 (n : Nat) (r : List Nat) (h : n < 4294967296) : u32 (le32 n ++ r) = n := by
  simp [le32, u32]; omega

@[simp] theorem drop_le16 (n : Nat) (r : List Nat) : (le16 n ++ r).drop 2 = r := by
  simp [le16]

@[simp] theorem drop_le32 (n : Nat) (r : List Nat) : (le32 n ++ r).drop 4 = r := by
  simp [le32]

theorem take_of_length_eq {l r : List Nat} {n : Nat} (h : l.length = n) :
    (l ++ r).take n = l := List.take_left' h

theorem drop_of_length_eq {l r : List Nat} {n : Nat} (h : l.length = n) :
    (l ++ r).drop n = r := List.drop_left' h

theorem mem_le16_lt {x n : Nat} (h : x ∈ le16 n) : x < 256 := by
  simp [le16] at h; rcases h with h | h <;> omega

theorem mem_le32_lt {x n : Nat} (h : x ∈ le32 n) : x < 256 := by
  simp [le32] at h; rcases h with h | h | h | h <;> omega

theorem xorWords_lt :
    ∀ (l : List Nat), (∀ x ∈ l, x < 256) → xorWords l < 4294967296
  | [], _ => by simp [xorWords, u32]
  | [b0], h => by
      have := h b0 (by simp)
      simp only [xorWords, u32]; omega
  | [b0, b1], h => by
      have h0 := h b0 (by simp); have h1 := h b1 (by simp)
      simp only [xorWords, u32]; omega
  | [b0, b1, b2], h => by
      have h0 := h b0 (by simp); have h1 := h b1 (by simp); have h2 := h b2 (by simp)
      simp only [xorWords, u32]; omega
  | b0 :: b1 :: b2 :: b3 :: rest, h => by
      have hr := xorWords_lt rest (fun x hx => h x (by simp [hx]))
      have h0 := h b0 (by simp); have h1 := h b1 (by simp)
      have h2 := h b2 (by simp); have h3 := h b3 (by simp)
      simp only [xorWords]
      have hw : b0 + 256 * b1 + 65536 * b2 + 16777216 * b3 < 4294967296 := by omega
      have := Nat.xor_lt_two_pow (n := 32) (by norm_num at hw ⊢; exact hw)
        (by norm_num at hr ⊢; exact hr)
      norm_num at this ⊢; exact this

theorem checksum_lt (l : List Nat) (h : ∀ x ∈ l, x < 256) : checksum l < 4294967296 :=
  xorWords_lt l h

/-! ## Lemmas and claim theorems -/


theorem u16_le16s (n : Nat) (h : n < 65536) : u16 (le16 n) = n := by
  simpa using u16_le16 n [] h

theorem u32_le32s (n : Nat) (h : n < 4294967296) : u32 (le32 n) = n := by
  simpa using u32_le32 n [] h




theorem parseTlvGo_fuel :
    ∀ (f1 f2 : Nat) (buffer : List Nat) (remaining : Nat),
      remaining ≤ f1 → remaining ≤ f2 →
      parseTlvGo f1 buffer remaining = parseTlvGo f2 buffer remaining := by
  intro f1
  induction f1 with
  | zero =>
    intro f2 buffer remaining h1 h2
    have hr : remaining = 0 := Nat.le_zero.mp h1
    subst hr
    cases f2 <;> simp [parseTlvGo]
  | succ f ih =>
    intro f2 buffer remaining h1 h2
    cases f2 with
    | zero =>
      have hr : remaining = 0 := Nat.le_zero.mp h2
      subst hr
      simp [parseTlvGo]
    | succ f2' =>
      simp only [parseTlvGo]
      by_cases h4 : remaining ≥ 4
      · simp only [if_pos h4]
        congr 1
        exact ih f2' _ _ (by omega) (by omega)
      · simp only [if_neg h4]

theorem entry_main (a b c rem1 : Nat) (r : List Nat) (h12 : 12 ≤ rem1)
    (ha : a < 4294967296) (hb : b < 4294967296) (hc : c < 4294967296) :
    parseTlvEntry 1 12 rem1 (le32 a ++ (le32 b ++ (le32 c ++ r))) =
      [.main ⟨true, a, b, c⟩] := by
  have ht : (le32 a ++ (le32 b ++ (le32 c ++ r))).take 12 = le32 a ++ (le32 b ++ le32 c) := rfl
  simp only [parseTlvEntry, ht]
  have hinit : TBFTLVMain.init (le32 a ++ (le32 b ++ le32 c)) = ⟨true, a, b, c⟩ := by
    simp only [TBFTLVMain.init]
    rw [if_pos (by simp)]
    have hd4 : (le32 a ++ (le32 b ++ le32 c)).drop 4 = le32 b ++ le32 c := rfl
    have hd8 : (le32 a ++ (le32 b ++ le32 c)).drop 8 = le32 c := rfl
    rw [hd4, hd8]
    rw [u32_le32 a _ ha, u32_le32 b _ hb, u32_le32s c hc]
  simp [hinit, h12]

theorem roundup_of_mod_eq_zero {k : Nat} (h : k % 4 = 0) : roundup k 4 = k := by
  unfold roundup
  simp [h]

theorem pkg_pad_length (L : Nat) : L + (roundup L 4 - L) = roundup L 4 := by
  unfold roundup
  by_cases h : L % 4 = 0
  · simp [h]
  · rw [if_neg (by simpa using h)]
    omega

theorem unknown_pad_length (L : Nat) : L + (4 - (4 + L) % 4) % 4 = roundup L 4 := by
  unfold roundup
  by_cases h : L % 4 = 0
  · simp [h]
  · rw [if_neg (by simpa using h)]
    omega

theorem wfrBytes_length (rs : List (Nat × Nat)) :
    ((rs.map (fun p => le32 p.1 ++ le32 p.2)).flatten).length = rs.length * 8 := by
  induction rs with
  | nil => simp
  | cons p rest ih => simp [ih]; omega

theorem parseWfrPairs_encode :
    ∀ (rs : List (Nat × Nat)),
      (∀ p ∈ rs, p.1 < 4294967296 ∧ p.2 < 4294967296) →
      parseWfrPairs rs.length ((rs.map (fun p => le32 p.1 ++ le32 p.2)).flatten) = rs := by
  intro rs
  induction rs with
  | nil => intro _; simp [parseWfrPairs]
  | cons p rest ih =>
    intro hb
    obtain ⟨h1, h2⟩ := hb p (by simp)
    simp only [List.map_cons, List.flatten_cons, List.length_cons, parseWfrPairs,
      List.append_assoc]
    rw [u32_le32 _ _ h1, drop_le32, u32_le32 _ _ h2]
    rw [show (le32 p.1 ++ (le32 p.2 ++ ((rest.map (fun p => le32 p.1 ++ le32 p.2)).flatten))).drop 8
          = (rest.map (fun p => le32 p.1 ++ le32 p.2)).flatten from rfl]
    rw [ih (fun q hq => hb q (by simp [hq]))]

theorem entry_program (a b c d e rem1 : Nat) (r : List Nat) (h20 : 20 ≤ rem1)
    (ha : a < 4294967296) (hb : b < 4294967296) (hc : c < 4294967296)
    (hd : d < 4294967296) (he : e < 4294967296) :
    parseTlvEntry 9 20 rem1 (le32 a ++ (le32 b ++ (le32 c ++ (le32 d ++ (le32 e ++ r))))) =
      [.program ⟨true, a, b, c, d, e⟩] := by
  have ht : (le32 a ++ (le32 b ++ (le32 c ++ (le32 d ++ (le32 e ++ r))))).take 20 =
      le32 a ++ (le32 b ++ (le32 c ++ (le32 d ++ le32 e))) := rfl
  simp only [parseTlvEntry, ht]
  have hinit : TBFTLVProgram.init (le32 a ++ (le32 b ++ (le32 c ++ (le32 d ++ le32 e)))) =
      ⟨true, a, b, c, d, e⟩ := by
    simp only [TBFTLVProgram.init]
    rw [if_pos (by simp)]
    rw [show (le32 a ++ (le32 b ++ (le32 c ++ (le32 d ++ le32 e)))).drop 4 =
          le32 b ++ (le32 c ++ (le32 d ++ le32 e)) from rfl]
    rw [show (le32 a ++ (le32 b ++ (le32 c ++ (le32 d ++ le32 e)))).drop 8 =
          le32 c ++ (le32 d ++ le32 e) from rfl]
    rw [show (le32 a ++ (le32 b ++ (le32 c ++ (le32 d ++ le32 e)))).drop 12 =
          le32 d ++ le32 e from rfl]
    rw [show (le32 a ++ (le32 b ++ (le32 c ++ (le32 d ++ le32 e)))).drop 16 = le32 e from rfl]
    rw [u32_le32 a _ ha, u32_le32 b _ hb, u32_le32 c _ hc, u32_le32 d _ hd, u32_le32s e he]
  simp [hinit, h20]

theorem entry_wfr (rs : List (Nat × Nat)) (rem1 : Nat) (r : List Nat)
    (hrem : rs.length * 8 ≤ rem1)
    (hb : ∀ p ∈ rs, p.1 < 4294967296 ∧ p.2 < 4294967296) :
    parseTlvEntry 2 (rs.length * 8) rem1 ((rs.map (fun p => le32 p.1 ++ le32 p.2)).flatten ++ r) =
      [.writeableFlashRegions ⟨false, rs⟩] := by
  have ht : ((rs.map (fun p => le32 p.1 ++ le32 p.2)).flatten ++ r).take (rs.length * 8) =
      (rs.map (fun p => le32 p.1 ++ le32 p.2)).flatten :=
    take_of_length_eq (wfrBytes_length rs)
  simp only [parseTlvEntry, ht]
  have hinit : TBFTLVWriteableFlashRegions.init ((rs.map (fun p => le32 p.1 ++ le32 p.2)).flatten) =
      ⟨false, rs⟩ := by
    simp only [TBFTLVWriteableFlashRegions.init, wfrBytes_length]
    rw [if_pos (by simp [Nat.mul_mod_left])]
    rw [show rs.length * 8 / 8 = rs.length from by omega]
    rw [parseWfrPairs_encode rs hb]
  simp [hinit, hrem]

theorem entry_pkg (name : List Nat) (rem1 : Nat) (r : List Nat)
    (hrem : name.length ≤ rem1) :
    parseTlvEntry 3 name.length rem1
        (name ++ (List.replicate (roundup name.length 4 - name.length) 0 ++ r)) =
      [.packageName ⟨true, name⟩] := by
  have ht : (name ++ (List.replicate (roundup name.length 4 - name.length) 0 ++ r)).take name.length
      = name := take_of_length_eq rfl
  simp only [parseTlvEntry, ht]
  simp [TBFTLVPackageName.init, hrem]

theorem entry_fixed (a b rem1 : Nat) (r : List Nat) (h8 : 8 ≤ rem1)
    (ha : a < 4294967296) (hb : b < 4294967296) :
    parseTlvEntry 5 8 rem1 (le32 a ++ (le32 b ++ r)) = [.fixedAddress ⟨true, a, b⟩] := by
  have ht : (le32 a ++ (le32 b ++ r)).take 8 = le32 a ++ le32 b := rfl
  simp only [parseTlvEntry, ht]
  have hinit : TBFTLVFixedAddress.init (le32 a ++ le32 b) = ⟨true, a, b⟩ := by
    simp only [TBFTLVFixedAddress.init]
    rw [if_pos (by simp)]
    rw [show (le32 a ++ le32 b).drop 4 = le32 b from rfl]
    rw [u32_le32 a _ ha, u32_le32s b hb]
  simp [hinit, h8]

theorem entry_kernel (a b rem1 : Nat) (r : List Nat) (h4 : 4 ≤ rem1)
    (ha : a < 65536) (hb : b < 65536) :
    parseTlvEntry 8 4 rem1 (le16 a ++ (le16 b ++ r)) = [.kernelVersion ⟨true, a, b⟩] := by
  have ht : (le16 a ++ (le16 b ++ r)).take 4 = le16 a ++ le16 b := rfl
  simp only [parseTlvEntry, ht]
  have hinit : TBFTLVKernelVersion.init (le16 a ++ le16 b) = ⟨true, a, b⟩ := by
    simp only [TBFTLVKernelVersion.init]
    rw [if_pos (by simp)]
    rw [show (le16 a ++ le16 b).drop 2 = le16 b from rfl]
    rw [u16_le16 a _ ha, u16_le16s b hb]
  simp [hinit, h4]

theorem entry_pic (f0 f1 f2 f3 f4 f5 f6 f7 f8 f9 rem1 : Nat) (r : List Nat) (h40 : 40 ≤ rem1)
    (h0 : f0 < 4294967296) (h1 : f1 < 4294967296) (h2 : f2 < 4294967296)
    (h3 : f3 < 4294967296) (h4 : f4 < 4294967296) (h5 : f5 < 4294967296)
    (h6 : f6 < 4294967296) (h7 : f7 < 4294967296) (h8 : f8 < 4294967296)
    (h9 : f9 < 4294967296) :
    parseTlvEntry 4 40 rem1
        (le32 f0 ++ (le32 f1 ++ (le32 f2 ++ (le32 f3 ++ (le32 f4 ++ (le32 f5 ++
          (le32 f6 ++ (le32 f7 ++ (le32 f8 ++ (le32 f9 ++ r)))))))))) =
      [.picOption1 ⟨true, f0, f1, f2, f3, f4, f5, f6, f7, f8, f9⟩] := by
  have ht : (le32 f0 ++ (le32 f1 ++ (le32 f2 ++ (le32 f3 ++ (le32 f4 ++ (le32 f5 ++
        (le32 f6 ++ (le32 f7 ++ (le32 f8 ++ (le32 f9 ++ r)))))))))).take 40 =
      le32 f0 ++ (le32 f1 ++ (le32 f2 ++ (le32 f3 ++ (le32 f4 ++ (le32 f5 ++
        (le32 f6 ++ (le32 f7 ++ (le32 f8 ++ le32 f9)))))))) := rfl
  simp only [parseTlvEntry, ht]
  have hinit : TBFTLVPicOption1.init (le32 f0 ++ (le32 f1 ++ (le32 f2 ++ (le32 f3 ++
      (le32 f4 ++ (le32 f5 ++ (le32 f6 ++ (le32 f7 ++ (le32 f8 ++ le32 f9))))))))) =
      ⟨true, f0, f1, f2, f3, f4, f5, f6, f7, f8, f9⟩ := by
    simp only [TBFTLVPicOption1.init]
    rw [if_pos (by simp)]
    rw [show (le32 f0 ++ (le32 f1 ++ (le32 f2 ++ (le32 f3 ++ (le32 f4 ++ (le32 f5 ++
          (le32 f6 ++ (le32 f7 ++ (le32 f8 ++ le32 f9))))))))).drop 4 =
        le32 f1 ++ (le32 f2 ++ (le32 f3 ++ (le32 f4 ++ (le32 f5 ++ (le32 f6 ++
          (le32 f7 ++ (le32 f8 ++ le32 f9))))))) from rfl]
    rw [show (le32 f0 ++ (le32 f1 ++ (le32 f2 ++ (le32 f3 ++ (le32 f4 ++ (le32 f5 ++
          (le32 f6 ++ (le32 f7 ++ (le32 f8 ++ le32 f9))))))))).drop 8 =
        le32 f2 ++ (le32 f3 ++ (le32 f4 ++ (le32 f5 ++ (le32 f6 ++
          (le32 f7 ++ (le32 f8 ++ le32 f9)))))) from rfl]
    rw [show (le32 f0 ++ (le32 f1 ++ (le32 f2 ++ (le32 f3 ++ (le32 f4 ++ (le32 f5 ++
          (le32 f6 ++ (le32 f7 ++ (le32 f8 ++ le32 f9))))))))).drop 12 =
        le32 f3 ++ (le32 f4 ++ (le32 f5 ++ (le32 f6 ++ (le32 f7 ++ (le32 f8 ++ le32 f9))))) from rfl]
    rw [show (le32 f0 ++ (le32 f1 ++ (le32 f2 ++ (le32 f3 ++ (le32 f4 ++ (le32 f5 ++
          (le32 f6 ++ (le32 f7 ++ (le32 f8 ++ le32 f9))))))))).drop 16 =
        le32 f4 ++ (le32 f5 ++ (le32 f6 ++ (le32 f7 ++ (le32 f8 ++ le32 f9)))) from rfl]
    rw [show (le32 f0 ++ (le32 f1 ++ (le32 f2 ++ (le32 f3 ++ (le32 f4 ++ (le32 f5 ++
          (le32 f6 ++ (le32 f7 ++ (le32 f8 ++ le32 f9))))))))).drop 20 =
        le32 f5 ++ (le32 f6 ++ (le32 f7 ++ (le32 f8 ++ le32 f9))) from rfl]
    rw [show (le32 f0 ++ (le32 f1 ++ (le32 f2 ++ (le32 f3 ++ (le32 f4 ++ (le32 f5 ++
          (le32 f6 ++ (le32 f7 ++ (le32 f8 ++ le32 f9))))))))).drop 24 =
        le32 f6 ++ (le32 f7 ++ (le32 f8 ++ le32 f9)) from rfl]
    rw [show (le32 f0 ++ (le32 f1 ++ (le32 f2 ++ (le32 f3 ++ (le32 f4 ++ (le32 f5 ++
          (le32 f6 ++ (le32 f7 ++ (le32 f8 ++ le32 f9))))))))).drop 28 =
        le32 f7 ++ (le32 f8 ++ le32 f9) from rfl]
    rw [show (le32 f0 ++ (le32 f1 ++ (le32 f2 ++ (le32 f3 ++ (le32 f4 ++ (le32 f5 ++
          (le32 f6 ++ (le32 f7 ++ (le32 f8 ++ le32 f9))))))))).drop 32 =
        le32 f8 ++ le32 f9 from rfl]
    rw [show (le32 f0 ++ (le32 f1 ++ (le32 f2 ++ (le32 f3 ++ (le32 f4 ++ (le32 f5 ++
          (le32 f6 ++ (le32 f7 ++ (le32 f8 ++ le32 f9))))))))).drop 36 = le32 f9 from rfl]
    rw [u32_le32 f0 _ h0, u32_le32 f1 _ h1, u32_le32 f2 _ h2, u32_le32 f3 _ h3,
      u32_le32 f4 _ h4, u32_le32 f5 _ h5, u32_le32 f6 _ h6, u32_le32 f7 _ h7,
      u32_le32 f8 _ h8, u32_le32s f9 h9]
  simp [hinit, h40]

theorem entry_unknown (t : Nat) (body : List Nat) (rem1 : Nat) (r : List Nat)
    (hne : ¬ (t = 1 ∨ t = 2 ∨ t = 3 ∨ t = 4 ∨ t = 5 ∨ t = 8 ∨ t = 9)) :
    parseTlvEntry t body.length rem1 (body ++ r) = [.unknown ⟨t, body⟩] := by
  push_neg at hne
  obtain ⟨n1, n2, n3, n4, n5, n8, n9⟩ := hne
  have ht : (body ++ r).take body.length = body := take_of_length_eq rfl
  simp only [parseTlvEntry, beq_iff_eq, ht]
  rw [if_neg n1, if_neg n9, if_neg n2, if_neg n3, if_neg n4, if_neg n5, if_neg n8]

@[simp] theorem tlvBytes_nil : tlvBytes [] = [] := rfl

@[simp] theorem tlvBytes_cons (d : TLVSpec) (rest : List TLVSpec) :
    tlvBytes (d :: rest) = d.encode ++ tlvBytes rest := by
  simp [tlvBytes]

theorem encode_length_ge (d : TLVSpec) : 4 ≤ d.encode.length := by
  cases d <;>
    simp [TLVSpec.encode, TLVSpec.toRecord, TBFTLV.pack, TBFTLVMain.pack,
      TBFTLVProgram.pack, TBFTLVWriteableFlashRegions.pack, TBFTLVPackageName.pack,
      TBFTLVPicOption1.pack, TBFTLVFixedAddress.pack, TBFTLVKernelVersion.pack,
      TBFTLVUnknown.pack, le16, le32]

theorem drop_pkg (name r : List Nat) :
    (name ++ (List.replicate (roundup name.length 4 - name.length) 0 ++ r)).drop
      (roundup name.length 4) = r := by
  rw [← List.append_assoc]
  exact drop_of_length_eq (by simp [pkg_pad_length])

theorem parseTlvGo_tlvBytes :
    ∀ (specs : List TLVSpec), specs.all TLVSpec.wfb = true →
      ∀ fuel, (tlvBytes specs).length ≤ fuel →
        parseTlvGo fuel (tlvBytes specs) (tlvBytes specs).length =
          specs.map TLVSpec.toRecord := by
  intro specs
  induction specs with
  | nil => intro _ fuel _; cases fuel <;> simp [parseTlvGo]
  | cons d rest ih =>
    intro hwf fuel hfuel
    have hwfd : d.wfb = true := by
      simp only [List.all_cons, Bool.and_eq_true] at hwf; exact hwf.1
    have hwfr : rest.all TLVSpec.wfb = true := by
      simp only [List.all_cons, Bool.and_eq_true] at hwf; exact hwf.2
    have hE4 : 4 ≤ d.encode.length := encode_length_ge d
    rw [tlvBytes_cons] at hfuel ⊢
    cases fuel with
    | zero => simp only [List.length_append, Nat.le_zero] at hfuel; omega
    | succ f =>
      have hrem : (d.encode ++ tlvBytes rest).length ≥ 4 := by
        simp only [List.length_append]; omega
      have hLRf : (tlvBytes rest).length ≤ f := by
        simp only [List.length_append] at hfuel
        omega
      have htail : parseTlvGo f (tlvBytes rest) (tlvBytes rest).length =
            rest.map TLVSpec.toRecord :=
        (parseTlvGo_fuel f (tlvBytes rest).length _ _ hLRf (le_refl _)).trans
          (ih hwfr _ (le_refl _))
      simp only [parseTlvGo, if_pos hrem, List.map_cons]
      cases d with
      | mainS a b c =>
        simp only [TLVSpec.wfb, Bool.and_eq_true, decide_eq_true_eq] at hwfd
        obtain ⟨⟨ha, hb⟩, hc⟩ := hwfd
        simp only [TLVSpec.encode, TLVSpec.toRecord, TBFTLV.pack, TBFTLVMain.pack,
          List.append_assoc]
        have hre : (le16 1 ++ (le16 12 ++ (le32 a ++ (le32 b ++ (le32 c ++ tlvBytes rest))))).length
            = 16 + (tlvBytes rest).length := by
          simp only [List.length_append, le16_length, le32_length]
          omega
        rw [hre]
        rw [u16_le16 1 _ (by norm_num), drop_le16, u16_le16 12 _ (by norm_num)]
        have hdrop4 : List.drop 4 (le16 1 ++ (le16 12 ++ (le32 a ++ (le32 b ++
            (le32 c ++ tlvBytes rest))))) = le32 a ++ (le32 b ++ (le32 c ++ tlvBytes rest)) := rfl
        rw [hdrop4]
        rw [entry_main a b c (16 + (tlvBytes rest).length - 4) (tlvBytes rest)
          (by omega) ha hb hc]
        have hru : roundup 12 4 = 12 := rfl
        rw [hru]
        have hdropP : List.drop 12 (le32 a ++ (le32 b ++ (le32 c ++ tlvBytes rest)))
            = tlvBytes rest := rfl
        rw [hdropP]
        have harr : 16 + (tlvBytes rest).length - 4 - 12 = (tlvBytes rest).length := by omega
        rw [harr, htail]
        rfl
      | programS a b c d e =>
        simp only [TLVSpec.wfb, Bool.and_eq_true, decide_eq_true_eq] at hwfd
        obtain ⟨⟨⟨⟨ha, hb⟩, hc⟩, hd⟩, he⟩ := hwfd
        simp only [TLVSpec.encode, TLVSpec.toRecord, TBFTLV.pack, TBFTLVProgram.pack,
          List.append_assoc]
        have hre : (le16 9 ++ (le16 20 ++ (le32 a ++ (le32 b ++ (le32 c ++ (le32 d ++
              (le32 e ++ tlvBytes rest))))))).length = 24 + (tlvBytes rest).length := by
          simp only [List.length_append, le16_length, le32_length]
          omega
        rw [hre]
        rw [u16_le16 9 _ (by norm_num), drop_le16, u16_le16 20 _ (by norm_num)]
        have hdrop4 : List.drop 4 (le16 9 ++ (le16 20 ++ (le32 a ++ (le32 b ++ (le32 c ++
            (le32 d ++ (le32 e ++ tlvBytes rest)))))))
            = le32 a ++ (le32 b ++ (le32 c ++ (le32 d ++ (le32 e ++ tlvBytes rest)))) := rfl
        rw [hdrop4]
        rw [entry_program a b c d e (24 + (tlvBytes rest).length - 4) (tlvBytes rest)
          (by omega) ha hb hc hd he]
        have hru : roundup 20 4 = 20 := rfl
        rw [hru]
        have hdropP : List.drop 20 (le32 a ++ (le32 b ++ (le32 c ++ (le32 d ++
            (le32 e ++ tlvBytes rest))))) = tlvBytes rest := rfl
        rw [hdropP]
        have harr : 24 + (tlvBytes rest).length - 4 - 20 = (tlvBytes rest).length := by omega
        rw [harr, htail]
        rfl
      | wfrS rs =>
        simp only [TLVSpec.wfb, Bool.and_eq_true, decide_eq_true_eq, List.all_eq_true] at hwfd
        obtain ⟨hball, hlen⟩ := hwfd
        have hb : ∀ p ∈ rs, p.1 < 4294967296 ∧ p.2 < 4294967296 := by
          intro p hp
          have := hball p hp
          simpa [Bool.and_eq_true, decide_eq_true_eq] using this
        simp only [TLVSpec.encode, TLVSpec.toRecord, TBFTLV.pack,
          TBFTLVWriteableFlashRegions.pack, List.append_assoc]
        have hre : (le16 2 ++ (le16 (rs.length * 8) ++
              ((rs.map (fun p => le32 p.1 ++ le32 p.2)).flatten ++ tlvBytes rest))).length
            = 4 + rs.length * 8 + (tlvBytes rest).length := by
          simp only [List.length_append, le16_length, wfrBytes_length]
          omega
        rw [hre]
        rw [u16_le16 2 _ (by norm_num), drop_le16, u16_le16 (rs.length * 8) _ (by omega)]
        have hdrop4 : List.drop 4 (le16 2 ++ (le16 (rs.length * 8) ++
            ((rs.map (fun p => le32 p.1 ++ le32 p.2)).flatten ++ tlvBytes rest)))
            = (rs.map (fun p => le32 p.1 ++ le32 p.2)).flatten ++ tlvBytes rest := rfl
        rw [hdrop4]
        rw [entry_wfr rs (4 + rs.length * 8 + (tlvBytes rest).length - 4) (tlvBytes rest)
          (by omega) hb]
        rw [roundup_of_mod_eq_zero (by omega)]
        rw [drop_of_length_eq (wfrBytes_length rs)]
        have harr : 4 + rs.length * 8 + (tlvBytes rest).length - 4 - rs.length * 8
            = (tlvBytes rest).length := by omega
        rw [harr, htail]
        rfl
      | pkgS name =>
        simp only [TLVSpec.wfb, Bool.and_eq_true, decide_eq_true_eq] at hwfd
        obtain ⟨-, hL⟩ := hwfd
        have hpp := pkg_pad_length name.length
        simp only [TLVSpec.encode, TLVSpec.toRecord, TBFTLV.pack, TBFTLVPackageName.pack,
          List.append_assoc]
        have hre : (le16 3 ++ (le16 name.length ++ (name ++
              (List.replicate (roundup name.length 4 - name.length) 0 ++ tlvBytes rest)))).length
            = 4 + roundup name.length 4 + (tlvBytes rest).length := by
          simp only [List.length_append, le16_length, List.length_replicate]
          omega
        rw [hre]
        rw [u16_le16 3 _ (by norm_num), drop_le16, u16_le16 name.length _ hL]
        have hdrop4 : List.drop 4 (le16 3 ++ (le16 name.length ++ (name ++
            (List.replicate (roundup name.length 4 - name.length) 0 ++ tlvBytes rest))))
            = name ++ (List.replicate (roundup name.length 4 - name.length) 0 ++ tlvBytes rest) := rfl
        rw [hdrop4]
        rw [entry_pkg name (4 + roundup name.length 4 + (tlvBytes rest).length - 4) (tlvBytes rest)
          (by omega)]
        rw [drop_pkg]
        have harr : 4 + roundup name.length 4 + (tlvBytes rest).length - 4 - roundup name.length 4
            = (tlvBytes rest).length := by omega
        rw [harr, htail]
        rfl
      | picS f0 f1 f2 f3 f4 f5 f6 f7 f8 f9 =>
        simp only [TLVSpec.wfb, Bool.and_eq_true, decide_eq_true_eq] at hwfd
        obtain ⟨⟨⟨⟨⟨⟨⟨⟨⟨h0, h1⟩, h2⟩, h3⟩, h4⟩, h5⟩, h6⟩, h7⟩, h8⟩, h9⟩ := hwfd
        simp only [TLVSpec.encode, TLVSpec.toRecord, TBFTLV.pack, TBFTLVPicOption1.pack,
          List.append_assoc]
        have hre : (le16 4 ++ (le16 40 ++ (le32 f0 ++ (le32 f1 ++ (le32 f2 ++ (le32 f3 ++
              (le32 f4 ++ (le32 f5 ++ (le32 f6 ++ (le32 f7 ++ (le32 f8 ++ (le32 f9 ++
                tlvBytes rest)))))))))))).length = 44 + (tlvBytes rest).length := by
          simp only [List.length_append, le16_length, le32_length]
          omega
        rw [hre]
        rw [u16_le16 4 _ (by norm_num), drop_le16, u16_le16 40 _ (by norm_num)]
        have hdrop4 : List.drop 4 (le16 4 ++ (le16 40 ++ (le32 f0 ++ (le32 f1 ++ (le32 f2 ++
            (le32 f3 ++ (le32 f4 ++ (le32 f5 ++ (le32 f6 ++ (le32 f7 ++ (le32 f8 ++ (le32 f9 ++
              tlvBytes rest))))))))))))
            = le32 f0 ++ (le32 f1 ++ (le32 f2 ++ (le32 f3 ++ (le32 f4 ++ (le32 f5 ++
              (le32 f6 ++ (le32 f7 ++ (le32 f8 ++ (le32 f9 ++ tlvBytes rest))))))))) := rfl
        rw [hdrop4]
        rw [entry_pic f0 f1 f2 f3 f4 f5 f6 f7 f8 f9 (44 + (tlvBytes rest).length - 4)
          (tlvBytes rest) (by omega) h0 h1 h2 h3 h4 h5 h6 h7 h8 h9]
        have hru : roundup 40 4 = 40 := rfl
        rw [hru]
        have hdropP : List.drop 40 (le32 f0 ++ (le32 f1 ++ (le32 f2 ++ (le32 f3 ++ (le32 f4 ++
            (le32 f5 ++ (le32 f6 ++ (le32 f7 ++ (le32 f8 ++ (le32 f9 ++ tlvBytes rest))))))))))
            = tlvBytes rest := rfl
        rw [hdropP]
        have harr : 44 + (tlvBytes rest).length - 4 - 40 = (tlvBytes rest).length := by omega
        rw [harr, htail]
        rfl
      | fixedS a b =>
        simp only [TLVSpec.wfb, Bool.and_eq_true, decide_eq_true_eq] at hwfd
        obtain ⟨ha, hb⟩ := hwfd
        simp only [TLVSpec.encode, TLVSpec.toRecord, TBFTLV.pack, TBFTLVFixedAddress.pack,
          List.append_assoc]
        have hre : (le16 5 ++ (le16 8 ++ (le32 a ++ (le32 b ++ tlvBytes rest)))).length
            = 12 + (tlvBytes rest).length := by
          simp only [List.length_append, le16_length, le32_length]
          omega
        rw [hre]
        rw [u16_le16 5 _ (by norm_num), drop_le16, u16_le16 8 _ (by norm_num)]
        have hdrop4 : List.drop 4 (le16 5 ++ (le16 8 ++ (le32 a ++ (le32 b ++ tlvBytes rest))))
            = le32 a ++ (le32 b ++ tlvBytes rest) := rfl
        rw [hdrop4]
        rw [entry_fixed a b (12 + (tlvBytes rest).length - 4) (tlvBytes rest) (by omega) ha hb]
        have hru : roundup 8 4 = 8 := rfl
        rw [hru]
        have hdropP : List.drop 8 (le32 a ++ (le32 b ++ tlvBytes rest)) = tlvBytes rest := rfl
        rw [hdropP]
        have harr : 12 + (tlvBytes rest).length - 4 - 8 = (tlvBytes rest).length := by omega
        rw [harr, htail]
        rfl
      | kernelS a b =>
        simp only [TLVSpec.wfb, Bool.and_eq_true, decide_eq_true_eq] at hwfd
        obtain ⟨ha, hb⟩ := hwfd
        simp only [TLVSpec.encode, TLVSpec.toRecord, TBFTLV.pack, TBFTLVKernelVersion.pack,
          List.append_assoc]
        have hre : (le16 8 ++ (le16 4 ++ (le16 a ++ (le16 b ++ tlvBytes rest)))).length
            = 8 + (tlvBytes rest).length := by
          simp only [List.length_append, le16_length, le32_length]
          omega
        rw [hre]
        rw [u16_le16 8 _ (by norm_num), drop_le16, u16_le16 4 _ (by norm_num)]
        have hdrop4 : List.drop 4 (le16 8 ++ (le16 4 ++ (le16 a ++ (le16 b ++ tlvBytes rest))))
            = le16 a ++ (le16 b ++ tlvBytes rest) := rfl
        rw [hdrop4]
        rw [entry_kernel a b (8 + (tlvBytes rest).length - 4) (tlvBytes rest) (by omega) ha hb]
        have hru : roundup 4 4 = 4 := rfl
        rw [hru]
        have hdropP : List.drop 4 (le16 a ++ (le16 b ++ tlvBytes rest)) = tlvBytes rest := rfl
        rw [hdropP]
        have harr : 8 + (tlvBytes rest).length - 4 - 4 = (tlvBytes rest).length := by omega
        rw [harr, htail]
        rfl
      | unknownS t body =>
        simp only [TLVSpec.wfb, Bool.and_eq_true, decide_eq_true_eq, Bool.not_eq_true',
          Bool.or_eq_false_iff, beq_eq_false_iff_ne, ne_eq, List.all_eq_true] at hwfd
        obtain ⟨⟨⟨ht16, hbytes⟩, hL⟩, ⟨⟨⟨⟨⟨⟨n1, n2⟩, n3⟩, n4⟩, n5⟩, n8⟩, n9⟩⟩ := hwfd
        have hpad := unknown_pad_length body.length
        simp only [TLVSpec.encode, TLVSpec.toRecord, TBFTLV.pack, TBFTLVUnknown.pack,
          List.append_assoc]
        have hcnt : (4 - (le16 t ++ (le16 body.length ++ body)).length % 4) % 4
            = (4 - (4 + body.length) % 4) % 4 := by
          simp only [List.length_append, le16_length]
          omega
        rw [hcnt]
        have hre : (le16 t ++ (le16 body.length ++ (body ++
              (List.replicate ((4 - (4 + body.length) % 4) % 4) 0 ++ tlvBytes rest)))).length
            = 4 + roundup body.length 4 + (tlvBytes rest).length := by
          simp only [List.length_append, le16_length, List.length_replicate]
          omega
        rw [hre]
        rw [u16_le16 t _ ht16, drop_le16, u16_le16 body.length _ hL]
        have hdrop4 : List.drop 4 (le16 t ++ (le16 body.length ++ (body ++
            (List.replicate ((4 - (4 + body.length) % 4) % 4) 0 ++ tlvBytes rest))))
            = body ++ (List.replicate ((4 - (4 + body.length) % 4) % 4) 0 ++
                tlvBytes rest) := rfl
        rw [hdrop4]
        rw [entry_unknown t body (4 + roundup body.length 4 + (tlvBytes rest).length - 4)
          (List.replicate ((4 - (4 + body.length) % 4) % 4) 0 ++ tlvBytes rest)
          (by tauto)]
        have hdropP : (body ++ (List.replicate ((4 - (4 + body.length) % 4) % 4) 0 ++
            tlvBytes rest)).drop (roundup body.length 4) = tlvBytes rest := by
          rw [← List.append_assoc]
          refine drop_of_length_eq ?_
          simp only [List.length_append, List.length_replicate]
          omega
        rw [hdropP]
        have harr : 4 + roundup body.length 4 + (tlvBytes rest).length - 4 -
            roundup body.length 4 = (tlvBytes rest).length := by omega
        rw [harr, htail]
        rfl

theorem parseTlvLoop_tlvBytes (specs : List TLVSpec) (hwf : specs.all TLVSpec.wfb = true) :
    parseTlvLoop (tlvBytes specs) (tlvBytes specs).length = specs.map TLVSpec.toRecord :=
  parseTlvGo_tlvBytes specs hwf _ (le_refl _)

theorem mkHeaderBufferCk_length (specs : List TLVSpec) (ts fl ck : Nat) :
    (mkHeaderBufferCk specs ts fl ck).length = 16 + (tlvBytes specs).length := by
  simp only [mkHeaderBufferCk, List.length_append, le16_length, le32_length] <;> omega

theorem tlvBytes_length_pos {specs : List TLVSpec} (h : specs ≠ []) :
    4 ≤ (tlvBytes specs).length := by
  cases specs with
  | nil => exact absurd rfl h
  | cons d rest =>
    have := encode_length_ge d
    simp only [tlvBytes_cons, List.length_append]
    omega

/-- Parsing a well-formed v2 header buffer: the base fields are extracted,
the TLV stream parses to the corresponding records, the slot is an app iff
the TLV stream is nonempty, and validity is `true` for an app slot but the
checksum comparison for a padding slot. -/
theorem TBFHeader_init_mk (specs : List TLVSpec) (ts fl ck : Nat)
    (hwf : specs.all TLVSpec.wfb = true)
    (hts : ts < 4294967296) (hfl : fl < 4294967296) (hck : ck < 4294967296)
    (hhs : 16 + (tlvBytes specs).length < 65536) :
    TBFHeader.init (mkHeaderBufferCk specs ts fl ck) =
      { version := 2,
        valid := if specs.isEmpty then
            checksum (mkHeaderBufferCk specs ts fl 0) == ck else true,
        app := !specs.isEmpty,
        modified := false,
        fields := [("header_size", 16 + (tlvBytes specs).length), ("total_size", ts),
          ("flags", fl), ("checksum", ck)],
        tlvs := specs.map TLVSpec.toRecord } := by
  have hBlen := mkHeaderBufferCk_length specs ts fl ck
  simp only [TBFHeader.init]
  rw [if_neg (by omega)]
  simp only [mkHeaderBufferCk, List.append_assoc]
  rw [u16_le16 2 _ (by norm_num)]
  rw [if_neg (by simp)]
  rw [drop_le16]
  rw [if_pos ⟨rfl, by
    simp only [List.length_append, le16_length, le32_length]
    omega⟩]
  rw [u16_le16 (16 + (tlvBytes specs).length) _ hhs]
  rw [drop_le16, u32_le32 ts _ hts]
  have hd6 : List.drop 6 (le16 (16 + (tlvBytes specs).length) ++ (le32 ts ++ (le32 fl ++
      (le32 ck ++ tlvBytes specs)))) = le32 fl ++ (le32 ck ++ tlvBytes specs) := rfl
  rw [hd6, u32_le32 fl _ hfl]
  have hd10 : List.drop 10 (le16 (16 + (tlvBytes specs).length) ++ (le32 ts ++ (le32 fl ++
      (le32 ck ++ tlvBytes specs)))) = le32 ck ++ tlvBytes specs := rfl
  rw [hd10, u32_le32 ck _ hck]
  rw [if_pos ⟨by
    simp only [List.length_append, le16_length, le32_length]
    omega, by omega⟩]
  have htake : (le16 2 ++ (le16 (16 + (tlvBytes specs).length) ++ (le32 ts ++ (le32 fl ++
      (le32 ck ++ tlvBytes specs))))).take (16 + (tlvBytes specs).length) =
      le16 2 ++ (le16 (16 + (tlvBytes specs).length) ++ (le32 ts ++ (le32 fl ++
      (le32 ck ++ tlvBytes specs)))) := by
    refine List.take_of_length_le ?_
    simp only [List.length_append, le16_length, le32_length]
    omega
  rw [htake]
  have hwrite : writeBytesAt (le16 2 ++ (le16 (16 + (tlvBytes specs).length) ++ (le32 ts ++
      (le32 fl ++ (le32 ck ++ tlvBytes specs))))) 12 (le32 0) =
      le16 2 ++ (le16 (16 + (tlvBytes specs).length) ++ (le32 ts ++ (le32 fl ++
      (le32 0 ++ tlvBytes specs)))) := by
    simp only [writeBytesAt, le32_length]
    have ht12 : (le16 2 ++ (le16 (16 + (tlvBytes specs).length) ++ (le32 ts ++ (le32 fl ++
        (le32 ck ++ tlvBytes specs))))).take 12 =
        le16 2 ++ (le16 (16 + (tlvBytes specs).length) ++ (le32 ts ++ le32 fl)) := rfl
    have hd16 : (le16 2 ++ (le16 (16 + (tlvBytes specs).length) ++ (le32 ts ++ (le32 fl ++
        (le32 ck ++ tlvBytes specs))))).drop (12 + 4) = tlvBytes specs := rfl
    rw [ht12, hd16]
    simp [List.append_assoc]
  rw [hwrite]
  have hd16' : List.drop 16 (le16 2 ++ (le16 (16 + (tlvBytes specs).length) ++ (le32 ts ++
      (le32 fl ++ (le32 ck ++ tlvBytes specs))))) = tlvBytes specs := rfl
  rw [hd16']
  have hrem : 16 + (tlvBytes specs).length - 16 = (tlvBytes specs).length := by omega
  rw [hrem]
  by_cases hne : specs = []
  · subst hne
    rw [if_neg (by simp [tlvBytes])]
    simp [mkHeaderBufferCk, tlvBytes, List.isEmpty]
  · have hpos := tlvBytes_length_pos hne
    rw [if_pos ⟨by omega, le_refl _⟩]
    rw [parseTlvLoop_tlvBytes specs hwf]
    have hemp : specs.isEmpty = false := by
      cases specs with
      | nil => exact absurd rfl hne
      | cons d rest => rfl
    simp [hemp]

theorem encode_bytes_lt {d : TLVSpec} (hwf : d.wfb = true) :
    ∀ x ∈ d.encode, x < 256 := by
  cases d with
  | mainS a b c =>
    intro x hx
    simp only [TLVSpec.encode, TLVSpec.toRecord, TBFTLV.pack, TBFTLVMain.pack,
      List.append_assoc, List.mem_append] at hx
    rcases hx with hx | hx | hx | hx | hx <;>
      first | exact mem_le16_lt hx | exact mem_le32_lt hx
  | programS a b c d e =>
    intro x hx
    simp only [TLVSpec.encode, TLVSpec.toRecord, TBFTLV.pack, TBFTLVProgram.pack,
      List.append_assoc, List.mem_append] at hx
    rcases hx with hx | hx | hx | hx | hx | hx | hx <;>
      first | exact mem_le16_lt hx | exact mem_le32_lt hx
  | wfrS rs =>
    intro x hx
    simp only [TLVSpec.encode, TLVSpec.toRecord, TBFTLV.pack,
      TBFTLVWriteableFlashRegions.pack, List.append_assoc, List.mem_append,
      List.mem_flatten, List.mem_map] at hx
    rcases hx with hx | hx | ⟨l, ⟨p, -, hp⟩, hx⟩
    · exact mem_le16_lt hx
    · exact mem_le16_lt hx
    · subst hp
      rcases List.mem_append.mp hx with hx | hx <;> exact mem_le32_lt hx
  | pkgS name =>
    simp only [TLVSpec.wfb, Bool.and_eq_true, List.all_eq_true, decide_eq_true_eq] at hwf
    obtain ⟨hname, -⟩ := hwf
    intro x hx
    simp only [TLVSpec.encode, TLVSpec.toRecord, TBFTLV.pack, TBFTLVPackageName.pack,
      List.append_assoc, List.mem_append] at hx
    rcases hx with hx | hx | hx | hx
    · exact mem_le16_lt hx
    · exact mem_le16_lt hx
    · exact hname x hx
    · have := List.eq_of_mem_replicate hx
      omega
  | picS f0 f1 f2 f3 f4 f5 f6 f7 f8 f9 =>
    intro x hx
    simp only [TLVSpec.encode, TLVSpec.toRecord, TBFTLV.pack, TBFTLVPicOption1.pack,
      List.append_assoc, List.mem_append] at hx
    rcases hx with hx | hx | hx | hx | hx | hx | hx | hx | hx | hx | hx | hx <;>
      first | exact mem_le16_lt hx | exact mem_le32_lt hx
  | fixedS a b =>
    intro x hx
    simp only [TLVSpec.encode, TLVSpec.toRecord, TBFTLV.pack, TBFTLVFixedAddress.pack,
      List.append_assoc, List.mem_append] at hx
    rcases hx with hx | hx | hx | hx <;>
      first | exact mem_le16_lt hx | exact mem_le32_lt hx
  | kernelS a b =>
    intro x hx
    simp only [TLVSpec.encode, TLVSpec.toRecord, TBFTLV.pack, TBFTLVKernelVersion.pack,
      List.append_assoc, List.mem_append] at hx
    rcases hx with hx | hx | hx | hx <;> exact mem_le16_lt hx
  | unknownS t body =>
    simp only [TLVSpec.wfb, Bool.and_eq_true, List.all_eq_true, decide_eq_true_eq] at hwf
    obtain ⟨⟨⟨-, hbody⟩, -⟩, -⟩ := hwf
    intro x hx
    simp only [TLVSpec.encode, TLVSpec.toRecord, TBFTLV.pack, TBFTLVUnknown.pack,
      List.append_assoc, List.mem_append] at hx
    rcases hx with hx | hx | hx | hx
    · exact mem_le16_lt hx
    · exact mem_le16_lt hx
    · exact hbody x hx
    · have := List.eq_of_mem_replicate hx
      omega

theorem tlvBytes_bytes_lt {specs : List TLVSpec} (hwf : specs.all TLVSpec.wfb = true) :
    ∀ x ∈ tlvBytes specs, x < 256 := by
  intro x hx
  simp only [tlvBytes, List.mem_flatten, List.mem_map] at hx
  obtain ⟨l, ⟨d, hd, hl⟩, hx⟩ := hx
  subst hl
  have hwfd : d.wfb = true := by
    simp only [List.all_eq_true] at hwf
    exact hwf d hd
  exact encode_bytes_lt hwfd x hx

theorem mk_bytes_lt {specs : List TLVSpec} (ts fl ck : Nat)
    (hwf : specs.all TLVSpec.wfb = true) :
    ∀ x ∈ mkHeaderBufferCk specs ts fl ck, x < 256 := by
  intro x hx
  simp only [mkHeaderBufferCk, List.append_assoc, List.mem_append] at hx
  rcases hx with hx | hx | hx | hx | hx | hx
  · exact mem_le16_lt hx
  · exact mem_le16_lt hx
  · exact mem_le32_lt hx
  · exact mem_le32_lt hx
  · exact mem_le32_lt hx
  · exact tlvBytes_bytes_lt hwf x hx

theorem writeBytesAt_mk (specs : List TLVSpec) (ts fl ck ck' : Nat) :
    writeBytesAt (mkHeaderBufferCk specs ts fl ck) 12 (le32 ck') =
      mkHeaderBufferCk specs ts fl ck' := by
  simp only [writeBytesAt, mkHeaderBufferCk, List.append_assoc, le32_length]
  have ht12 : (le16 2 ++ (le16 (16 + (tlvBytes specs).length) ++ (le32 ts ++ (le32 fl ++
      (le32 ck ++ tlvBytes specs))))).take 12 =
      le16 2 ++ (le16 (16 + (tlvBytes specs).length) ++ (le32 ts ++ le32 fl)) := rfl
  have hd16 : (le16 2 ++ (le16 (16 + (tlvBytes specs).length) ++ (le32 ts ++ (le32 fl ++
      (le32 ck ++ tlvBytes specs))))).drop (12 + 4) = tlvBytes specs := rfl
  rw [ht12, hd16]
  simp [List.append_assoc]

theorem packs_flatten (specs : List TLVSpec) :
    ((specs.map TLVSpec.toRecord).map TBFTLV.pack).flatten = tlvBytes specs := by
  simp only [tlvBytes, List.map_map]
  rfl

/-- C2 (amended): parsing a well-formed version-2 header buffer and
re-serializing with `get_binary` yields the original bytes followed by
`protected_size` zero bytes of padding (taken from the Main/Program TLV;
none when absent or zero) — exactly the original buffer only when the
declared protected region is empty. -/
theorem tbf_v2_roundtrip_with_protected_padding (specs : List TLVSpec) (ts fl : Nat)
    (hwf : specs.all TLVSpec.wfb = true)
    (hts : ts < 4294967296) (hfl : fl < 4294967296)
    (hhs : 16 + (tlvBytes specs).length < 65536) :
    (TBFHeader.init (mkHeaderBuffer specs ts fl)).get_binary =
      mkHeaderBuffer specs ts fl ++
        List.replicate (protPadOf (TBFHeader.init (mkHeaderBuffer specs ts fl))) 0 := by
  have hck : checksum (mkHeaderBufferCk specs ts fl 0) < 4294967296 :=
    checksum_lt _ (mk_bytes_lt ts fl 0 hwf)
  have hinit := TBFHeader_init_mk specs ts fl (checksum (mkHeaderBufferCk specs ts fl 0))
    hwf hts hfl hck hhs
  rw [show mkHeaderBuffer specs ts fl =
    mkHeaderBufferCk specs ts fl (checksum (mkHeaderBufferCk specs ts fl 0)) from rfl]
  rw [hinit]
  simp only [beq_self_eq_true, ite_self]
  simp only [TBFHeader.get_binary]
  rw [if_neg (by simp)]
  rw [if_pos (by decide : ((2 : Nat) == 2) = true)]
  have hdg1 : dget [("header_size", 16 + (tlvBytes specs).length), ("total_size", ts),
      ("flags", fl), ("checksum", checksum (mkHeaderBufferCk specs ts fl 0))]
      "header_size" = 16 + (tlvBytes specs).length := rfl
  have hdg2 : dget [("header_size", 16 + (tlvBytes specs).length), ("total_size", ts),
      ("flags", fl), ("checksum", checksum (mkHeaderBufferCk specs ts fl 0))]
      "total_size" = ts := rfl
  have hdg3 : dget [("header_size", 16 + (tlvBytes specs).length), ("total_size", ts),
      ("flags", fl), ("checksum", checksum (mkHeaderBufferCk specs ts fl 0))]
      "flags" = fl := rfl
  rw [hdg1, hdg2, hdg3]
  have hbuf : (le16 2 ++ le16 (16 + (tlvBytes specs).length) ++ le32 ts ++ le32 fl ++ le32 0)
      ++ (if (!specs.isEmpty) = true then
            ((specs.map TLVSpec.toRecord).map TBFTLV.pack).flatten else []) =
      mkHeaderBufferCk specs ts fl 0 := by
    by_cases hne : specs = []
    · subst hne
      simp [mkHeaderBufferCk, tlvBytes, List.append_assoc]
    · have hemp : specs.isEmpty = false := by
        cases specs with
        | nil => exact absurd rfl hne
        | cons d rest => rfl
      rw [hemp]
      simp only [Bool.not_false, if_pos rfl, packs_flatten]
      simp [mkHeaderBufferCk, List.append_assoc]
  rw [hbuf]
  rw [writeBytesAt_mk]
  rcases hbt : TBFHeader._get_binary_tlv
      { version := 2,
        valid := true,
        app := !specs.isEmpty,
        modified := false,
        fields := [("header_size", 16 + (tlvBytes specs).length), ("total_size", ts),
          ("flags", fl), ("checksum", checksum (mkHeaderBufferCk specs ts fl 0))],
        tlvs := specs.map TLVSpec.toRecord } with t | t
  · simp [protPadOf, hbt]
  · simp only [protPadOf, hbt]
    by_cases hp : protOf t > 0
    · rw [if_pos hp]
    · rw [if_neg hp]
      have : protOf t = 0 := by omega
      rw [this]
      simp

theorem dget_dset (fs : List (String × Nat)) (k : String) (v : Nat) :
    dget (dset fs k v) k = v := by
  induction fs with
  | nil => simp [dset, dget, List.lookup]
  | cons p rest ih =>
    simp only [dset]
    by_cases h : p.1 == k
    · rw [if_pos h]
      simp [dget, List.lookup]
    · rw [if_neg h]
      have hk : (k == p.1) = false :=
        beq_eq_false_iff_ne.mpr (fun hkk => h (by simp [hkk]))
      simp only [dget, List.lookup, hk]
      exact ih

theorem get_tlvid_bump (s : Nat) (t : TBFTLV) :
    (bumpMainProgramFields s t).get_tlvid = t.get_tlvid := by
  cases t <;> rfl

theorem protOf_bump (s : Nat) {t : TBFTLV} (h : isBinaryRecord t = true) :
    protOf (bumpMainProgramFields s t) = protOf t + s := by
  cases t <;> simp_all [isBinaryRecord, bumpMainProgramFields, protOf]

theorem initFnOf_bump (s : Nat) {t : TBFTLV} (h : isBinaryRecord t = true) :
    initFnOf (bumpMainProgramFields s t) = initFnOf t + s := by
  cases t <;> simp_all [isBinaryRecord, bumpMainProgramFields, initFnOf]

theorem ramOf_bump (s : Nat) (t : TBFTLV) :
    ramOf (bumpMainProgramFields s t) = ramOf t := by
  cases t <;> rfl

theorem binEndOf_bump (s : Nat) (t : TBFTLV) :
    binEndOf (bumpMainProgramFields s t) = binEndOf t := by
  cases t <;> rfl

theorem appVerOf_bump (s : Nat) (t : TBFTLV) :
    appVerOf (bumpMainProgramFields s t) = appVerOf t := by
  cases t <;> rfl

theorem tlvValidOf_bump (s : Nat) (t : TBFTLV) :
    tlvValidOf (bumpMainProgramFields s t) = tlvValidOf t := by
  cases t <;> rfl

theorem updFirst_length (p : TBFTLV → Bool) (f : TBFTLV → TBFTLV) :
    ∀ l : List TBFTLV, (updFirst p f l).length = l.length
  | [] => rfl
  | t :: ts => by
    simp only [updFirst]
    by_cases h : p t
    · simp [h]
    · simp [h, updFirst_length p f ts]

theorem find?_updFirst_same {p : TBFTLV → Bool} {f : TBFTLV → TBFTLV}
    (hpf : ∀ t, p t = true → p (f t) = true) :
    ∀ l : List TBFTLV, (updFirst p f l).find? p = (l.find? p).map f
  | [] => rfl
  | t :: ts => by
    simp only [updFirst]
    by_cases h : p t
    · rw [if_pos h]
      rw [List.find?_cons_of_pos _ (hpf t h), List.find?_cons_of_pos _ h]
      rfl
    · rw [if_neg h]
      rw [List.find?_cons_of_neg _ h, List.find?_cons_of_neg _ h]
      exact find?_updFirst_same hpf ts

theorem find?_updFirst_other {p q : TBFTLV → Bool} {f : TBFTLV → TBFTLV}
    (hqf : ∀ t, q (f t) = q t) (hpq : ∀ t, q t = true → p t = false) :
    ∀ l : List TBFTLV, (updFirst p f l).find? q = l.find? q
  | [] => rfl
  | t :: ts => by
    simp only [updFirst]
    by_cases h : p t
    · rw [if_pos h]
      have hqt : q t = false := by
        by_cases hq : q t = true
        · rw [hpq t hq] at h
          exact absurd h (by simp)
        · simpa using hq
      have hqft : q (f t) = false := by rw [hqf]; exact hqt
      rw [List.find?_cons_of_neg _ (by simp [hqft]), List.find?_cons_of_neg _ (by simp [hqt])]
    · rw [if_neg h]
      by_cases hq : q t
      · rw [List.find?_cons_of_pos _ hq, List.find?_cons_of_pos _ hq]
      · rw [List.find?_cons_of_neg _ hq, List.find?_cons_of_neg _ hq]
        exact find?_updFirst_other hqf hpq ts

theorem updFirst_getElem?_ne (p : TBFTLV → Bool) (f : TBFTLV → TBFTLV) :
    ∀ (l : List TBFTLV) (j : Nat), j ≠ l.findIdx p →
      (updFirst p f l)[j]? = l[j]?
  | [], _, _ => rfl
  | t :: ts, j, hj => by
    simp only [updFirst]
    rw [List.findIdx_cons] at hj
    by_cases h : p t
    · rw [if_pos h]
      simp only [h, cond_true] at hj
      cases j with
      | zero => exact absurd rfl hj
      | succ j' => simp [List.getElem?_cons_succ]
    · rw [if_neg h]
      have h' : p t = false := by simpa using h
      simp only [h', cond_false] at hj
      cases j with
      | zero => simp
      | succ j' =>
        simp only [List.getElem?_cons_succ]
        exact updFirst_getElem?_ne p f ts j' (by omega)

/-- The combined effect of `delete_tlv`'s in-place bump of the first Main
and the first Program record on the `find?`-visible fields. -/
theorem updFirst_bump_find (l : List TBFTLV) (s : Nat)
    (hsane : ∀ t ∈ l, (t.get_tlvid = 1 ∨ t.get_tlvid = 9) → isBinaryRecord t = true) :
    (((updFirst (fun t => t.get_tlvid == 9) (bumpMainProgramFields s)
        (updFirst (fun t => t.get_tlvid == 1) (bumpMainProgramFields s) l)).find?
          (fun t => t.get_tlvid == 1)).map protOf =
      (l.find? (fun t => t.get_tlvid == 1)).map (fun t => protOf t + s)) ∧
    (((updFirst (fun t => t.get_tlvid == 9) (bumpMainProgramFields s)
        (updFirst (fun t => t.get_tlvid == 1) (bumpMainProgramFields s) l)).find?
          (fun t => t.get_tlvid == 1)).map initFnOf =
      (l.find? (fun t => t.get_tlvid == 1)).map (fun t => initFnOf t + s)) ∧
    (((updFirst (fun t => t.get_tlvid == 9) (bumpMainProgramFields s)
        (updFirst (fun t => t.get_tlvid == 1) (bumpMainProgramFields s) l)).find?
          (fun t => t.get_tlvid == 9)).map protOf =
      (l.find? (fun t => t.get_tlvid == 9)).map (fun t => protOf t + s)) ∧
    (((updFirst (fun t => t.get_tlvid == 9) (bumpMainProgramFields s)
        (updFirst (fun t => t.get_tlvid == 1) (bumpMainProgramFields s) l)).find?
          (fun t => t.get_tlvid == 9)).map initFnOf =
      (l.find? (fun t => t.get_tlvid == 9)).map (fun t => initFnOf t + s)) := by
  have hid : ∀ t, (bumpMainProgramFields s t).get_tlvid = t.get_tlvid := get_tlvid_bump s
  have h1find : (updFirst (fun t => t.get_tlvid == 9) (bumpMainProgramFields s)
      (updFirst (fun t => t.get_tlvid == 1) (bumpMainProgramFields s) l)).find?
        (fun t => t.get_tlvid == 1) =
      ((l.find? (fun t => t.get_tlvid == 1)).map (bumpMainProgramFields s)) := by
    rw [find?_updFirst_other (fun t => by rw [hid]) (fun t ht => by
      simp only [beq_iff_eq] at ht
      simp only [beq_eq_false_iff_ne, ne_eq]
      omega)]
    exact find?_updFirst_same (fun t ht => by rw [hid]; exact ht) l
  have h9find : (updFirst (fun t => t.get_tlvid == 9) (bumpMainProgramFields s)
      (updFirst (fun t => t.get_tlvid == 1) (bumpMainProgramFields s) l)).find?
        (fun t => t.get_tlvid == 9) =
      ((l.find? (fun t => t.get_tlvid == 9)).map (bumpMainProgramFields s)) := by
    rw [find?_updFirst_same (fun t ht => by rw [hid]; exact ht)]
    rw [find?_updFirst_other (fun t => by rw [hid]) (fun t ht => by
      simp only [beq_iff_eq] at ht
      simp only [beq_eq_false_iff_ne, ne_eq]
      omega)]
  have hbin1 : ∀ t, l.find? (fun t => t.get_tlvid == 1) = some t → isBinaryRecord t = true := by
    intro t ht
    have hmem := List.mem_of_find?_eq_some ht
    have hp := List.find?_some ht
    simp only [beq_iff_eq] at hp
    exact hsane t hmem (Or.inl hp)
  have hbin9 : ∀ t, l.find? (fun t => t.get_tlvid == 9) = some t → isBinaryRecord t = true := by
    intro t ht
    have hmem := List.mem_of_find?_eq_some ht
    have hp := List.find?_some ht
    simp only [beq_iff_eq] at hp
    exact hsane t hmem (Or.inr hp)
  refine ⟨?_, ?_, ?_, ?_⟩
  · rw [h1find]
    rcases hf : l.find? (fun t => t.get_tlvid == 1) with _ | t
    · simp [hf]
    · simp [hf, protOf_bump s (hbin1 t hf)]
  · rw [h1find]
    rcases hf : l.find? (fun t => t.get_tlvid == 1) with _ | t
    · simp [hf]
    · simp [hf, initFnOf_bump s (hbin1 t hf)]
  · rw [h9find]
    rcases hf : l.find? (fun t => t.get_tlvid == 9) with _ | t
    · simp [hf]
    · simp [hf, protOf_bump s (hbin9 t hf)]
  · rw [h9find]
    rcases hf : l.find? (fun t => t.get_tlvid == 9) with _ | t
    · simp [hf]
    · simp [hf, initFnOf_bump s (hbin9 t hf)]

/-- C1: the source marks a SHA256 credential valid iff its body is 64 bytes
(SHA384: 96, SHA512: 128), misreading the bit counts as byte counts; the
actual digest lengths (which `verify` compares against) are 32/48/64 bytes,
so the claim's rule `valid iff length == digest length` fails on the code:
a 32-byte SHA256 body is marked not valid and a 64-byte one valid. -/
theorem credentials_sha_length_code_bug :
    (TBFFooterTLVCredentials.init trivialHashFns (le32 6 ++ List.replicate 32 0) none).valid
        = false ∧
    (TBFFooterTLVCredentials.init trivialHashFns (le32 6 ++ List.replicate 64 0) none).valid
        = true ∧
    (TBFFooterTLVCredentials.init trivialHashFns (le32 7 ++ List.replicate 48 0) none).valid
        = false ∧
    (TBFFooterTLVCredentials.init trivialHashFns (le32 7 ++ List.replicate 96 0) none).valid
        = true ∧
    (TBFFooterTLVCredentials.init trivialHashFns (le32 8 ++ List.replicate 64 0) none).valid
        = false ∧
    (TBFFooterTLVCredentials.init trivialHashFns (le32 8 ++ List.replicate 128 0) none).valid
        = true := by
  decide

/-- C3: on a checksum mismatch, a padding slot (header_size 16, no TLV
region) is marked not valid, while an application slot is marked valid
anyway. -/
theorem checksum_mismatch_padding_invalid_app_valid
    (specs : List TLVSpec) (ts fl ck : Nat)
    (hwf : specs.all TLVSpec.wfb = true) (hne : specs ≠ [])
    (hts : ts < 4294967296) (hfl : fl < 4294967296) (hck : ck < 4294967296)
    (hhs : 16 + (tlvBytes specs).length < 65536)
    (hmisPad : ck ≠ checksum (mkHeaderBufferCk [] ts fl 0))
    (hmisApp : ck ≠ checksum (mkHeaderBufferCk specs ts fl 0)) :
    ((TBFHeader.init (mkHeaderBufferCk [] ts fl ck)).valid = false ∧
     (TBFHeader.init (mkHeaderBufferCk [] ts fl ck)).app = false) ∧
    ((TBFHeader.init (mkHeaderBufferCk specs ts fl ck)).valid = true ∧
     (TBFHeader.init (mkHeaderBufferCk specs ts fl ck)).app = true) := by
  constructor
  · rw [TBFHeader_init_mk [] ts fl ck rfl hts hfl hck (by decide)]
    refine ⟨?_, by simp⟩
    simp only [List.isEmpty_nil, if_pos rfl]
    exact beq_eq_false_iff_ne.mpr (fun hc => hmisPad hc.symm)
  · rw [TBFHeader_init_mk specs ts fl ck hwf hts hfl hck hhs]
    have hemp : specs.isEmpty = false := by
      cases specs with
      | nil => exact absurd rfl hne
      | cons d rest => rfl
    exact ⟨by simp [hemp], by simp [hemp]⟩

/-- C3 witness. -/
theorem checksum_mismatch_padding_invalid_app_valid_witness :
    ([TLVSpec.mainS 32 0 1024].all TLVSpec.wfb = true ∧
     [TLVSpec.mainS 32 0 1024] ≠ [] ∧
     (0 : Nat) ≠ checksum (mkHeaderBufferCk [] 512 1 0) ∧
     (0 : Nat) ≠ checksum (mkHeaderBufferCk [TLVSpec.mainS 32 0 1024] 512 1 0)) ∧
    (((TBFHeader.init (mkHeaderBufferCk [] 512 1 0)).valid = false ∧
      (TBFHeader.init (mkHeaderBufferCk [] 512 1 0)).app = false) ∧
     ((TBFHeader.init (mkHeaderBufferCk [TLVSpec.mainS 32 0 1024] 512 1 0)).valid = true ∧
      (TBFHeader.init (mkHeaderBufferCk [TLVSpec.mainS 32 0 1024] 512 1 0)).app = true)) :=
  ⟨⟨by decide, by decide, by decide, by decide⟩,
    checksum_mismatch_padding_invalid_app_valid [TLVSpec.mainS 32 0 1024] 512 1 0
      (by decide) (by decide) (by decide) (by decide) (by decide) (by decide)
      (by decide) (by decide)⟩

/-- C4: `delete_tlv tlvid` removes every matching TLV, decreases the
`header_size` base field by the sum `s` of their serialized (`pack`)
lengths, and increases the `protected_size` and `init_fn_offset` of the
remaining first Main and first Program TLV each by exactly `s`. -/
theorem delete_tlv_conservation (h : TBFHeader) (tlvid : Nat)
    (hv : h.version = 2)
    (hkey : dmem h.fields "header_size" = true)
    (hsz : tlvDeleteSize h tlvid ≤ dget h.fields "header_size")
    (hsane : ∀ t ∈ h.tlvs, (t.get_tlvid = 1 ∨ t.get_tlvid = 9) → isBinaryRecord t = true) :
    ∃ h2, h.delete_tlv tlvid = Except.ok h2 ∧
      dget h2.fields "header_size" + tlvDeleteSize h tlvid = dget h.fields "header_size" ∧
      ((h2._get_tlv 1).map protOf =
        ((h.tlvs.filter (fun t => !(t.get_tlvid == tlvid))).find?
            (fun t => t.get_tlvid == 1)).map
          (fun t => protOf t + tlvDeleteSize h tlvid)) ∧
      ((h2._get_tlv 1).map initFnOf =
        ((h.tlvs.filter (fun t => !(t.get_tlvid == tlvid))).find?
            (fun t => t.get_tlvid == 1)).map
          (fun t => initFnOf t + tlvDeleteSize h tlvid)) ∧
      ((h2._get_tlv 9).map protOf =
        ((h.tlvs.filter (fun t => !(t.get_tlvid == tlvid))).find?
            (fun t => t.get_tlvid == 9)).map
          (fun t => protOf t + tlvDeleteSize h tlvid)) ∧
      ((h2._get_tlv 9).map initFnOf =
        ((h.tlvs.filter (fun t => !(t.get_tlvid == tlvid))).find?
            (fun t => t.get_tlvid == 9)).map
          (fun t => initFnOf t + tlvDeleteSize h tlvid)) := by
  have hsane' : ∀ t ∈ h.tlvs.filter (fun t => !(t.get_tlvid == tlvid)),
      (t.get_tlvid = 1 ∨ t.get_tlvid = 9) → isBinaryRecord t = true := by
    intro t ht
    exact hsane t (List.mem_of_mem_filter ht)
  have hbump := updFirst_bump_find (h.tlvs.filter (fun t => !(t.get_tlvid == tlvid)))
    (tlvDeleteSize h tlvid) hsane'
  rcases hdel : h.delete_tlv tlvid with e | h2
  · exfalso
    simp only [TBFHeader.delete_tlv, if_pos hkey] at hdel
    exact Except.noConfusion hdel
  · refine ⟨h2, rfl, ?_⟩
    simp only [TBFHeader.delete_tlv, if_pos hkey, Except.ok.injEq] at hdel
    subst hdel
    refine ⟨?_, hbump.1, hbump.2.1, hbump.2.2.1, hbump.2.2.2⟩
    rw [show ((h.tlvs.filter (fun t => t.get_tlvid == tlvid)).map TBFTLV.get_size).sum
          = tlvDeleteSize h tlvid from rfl]
    rw [dget_dset]
    omega

/-- C4 witness. -/
theorem delete_tlv_conservation_witness :
    (exampleAppHeader.version = 2 ∧
     dmem exampleAppHeader.fields "header_size" = true ∧
     tlvDeleteSize exampleAppHeader 5 ≤ dget exampleAppHeader.fields "header_size" ∧
     (∀ t ∈ exampleAppHeader.tlvs,
        (t.get_tlvid = 1 ∨ t.get_tlvid = 9) → isBinaryRecord t = true)) ∧
    (∃ h2, exampleAppHeader.delete_tlv 5 = Except.ok h2 ∧
      dget h2.fields "header_size" + tlvDeleteSize exampleAppHeader 5 =
        dget exampleAppHeader.fields "header_size" ∧
      ((h2._get_tlv 1).map protOf =
        ((exampleAppHeader.tlvs.filter (fun t => !(t.get_tlvid == 5))).find?
            (fun t => t.get_tlvid == 1)).map
          (fun t => protOf t + tlvDeleteSize exampleAppHeader 5)) ∧
      ((h2._get_tlv 1).map initFnOf =
        ((exampleAppHeader.tlvs.filter (fun t => !(t.get_tlvid == 5))).find?
            (fun t => t.get_tlvid == 1)).map
          (fun t => initFnOf t + tlvDeleteSize exampleAppHeader 5)) ∧
      ((h2._get_tlv 9).map protOf =
        ((exampleAppHeader.tlvs.filter (fun t => !(t.get_tlvid == 5))).find?
            (fun t => t.get_tlvid == 9)).map
          (fun t => protOf t + tlvDeleteSize exampleAppHeader 5)) ∧
      ((h2._get_tlv 9).map initFnOf =
        ((exampleAppHeader.tlvs.filter (fun t => !(t.get_tlvid == 5))).find?
            (fun t => t.get_tlvid == 9)).map
          (fun t => initFnOf t + tlvDeleteSize exampleAppHeader 5))) :=
  ⟨⟨rfl, by decide, by decide, by decide⟩,
    delete_tlv_conservation exampleAppHeader 5 rfl (by decide) (by decide) (by decide)⟩

/-- C6 (amended): only `set_flag` is guarded; it is a no-op on a version-1
or not-valid header.  The other mutators are unguarded on such headers:
`set_app_size` still overwrites `total_size` and sets `modified`;
`modify_tlv` on a base field still rewrites `fields`; `delete_tlv` still
proceeds whenever `header_size` is a base field and raises a `KeyError`
when it is not (as on every version-1 header, whose parsed fields lack
`header_size`); and `adjust_starting_address` still mutates a not-valid
version-2 application header. -/
theorem mutators_guard_only_set_flag (h : TBFHeader) (flag_name : String)
    (flag_value : Bool) (size : Nat) (field : String) (value tlvid : Nat)
    (hguard : h.version = 1 ∨ h.valid = false) :
    h.set_flag flag_name flag_value = h ∧
    (h.set_app_size size).modified = true ∧
    dget (h.set_app_size size).fields "total_size" = size ∧
    (h.set_app_size size).tlvs = h.tlvs ∧
    (h.set_app_size size).version = h.version ∧
    h.modify_tlv 0 field value =
      Except.ok { h with fields := dset h.fields field value } ∧
    (dmem h.fields "header_size" = true →
      ∃ h4, h.delete_tlv tlvid = Except.ok h4) ∧
    (dmem h.fields "header_size" = false →
      h.delete_tlv tlvid = Except.error "KeyError: header_size") ∧
    okOr (TBFHeader.adjust_starting_address
        { exampleAppHeader with valid := false } 196608)
      { exampleAppHeader with valid := false } ≠
      { exampleAppHeader with valid := false } := by
  refine ⟨?_, rfl, dget_dset _ _ _, rfl, rfl, rfl, ?_, ?_, ?_⟩
  · simp only [TBFHeader.set_flag]
    rcases hguard with h1 | h1
    · rw [if_pos (Or.inl (by simp [h1]))]
    · rw [if_pos (Or.inr h1)]
  · intro hmem
    simp only [TBFHeader.delete_tlv]
    rw [if_pos hmem]
    exact ⟨_, rfl⟩
  · intro hmem
    simp only [TBFHeader.delete_tlv]
    rw [if_neg (by simp [hmem])]
  · decide

/-- C6 counterexample: a parsed version-2 header that is not valid (bad
checksum) on which `set_app_size` is not a no-op: it changes the header
state (total_size and the modified flag). -/
theorem mutator_noop_claim_counterexample :
    (TBFHeader.init (mkHeaderBufferCk [] 100 0 7)).version = 2 ∧
    (TBFHeader.init (mkHeaderBufferCk [] 100 0 7)).valid = false ∧
    (TBFHeader.init (mkHeaderBufferCk [] 100 0 7)).set_app_size 999 ≠
      TBFHeader.init (mkHeaderBufferCk [] 100 0 7) := by
  decide

/-- C6 witness: the theorem applied to a not-valid parsed version-2 header
(where `delete_tlv` proceeds) and to a parsed version-1 header (where
`delete_tlv` raises a `KeyError` on the missing `header_size` field). -/
theorem mutators_guard_only_set_flag_witness :
    (((TBFHeader.init (mkHeaderBufferCk [] 100 0 7)).version = 1 ∨
        (TBFHeader.init (mkHeaderBufferCk [] 100 0 7)).valid = false) ∧
      dmem (TBFHeader.init (mkHeaderBufferCk [] 100 0 7)).fields "header_size" = true ∧
      (TBFHeader.init (mkHeaderBufferCk [] 100 0 7)).set_flag "enable" true =
        TBFHeader.init (mkHeaderBufferCk [] 100 0 7) ∧
      ((TBFHeader.init (mkHeaderBufferCk [] 100 0 7)).set_app_size 999).modified = true ∧
      dget ((TBFHeader.init (mkHeaderBufferCk [] 100 0 7)).set_app_size 999).fields
        "total_size" = 999 ∧
      (TBFHeader.init (mkHeaderBufferCk [] 100 0 7)).modify_tlv 0 "total_size" 7 =
        Except.ok { TBFHeader.init (mkHeaderBufferCk [] 100 0 7) with
          fields := dset (TBFHeader.init (mkHeaderBufferCk [] 100 0 7)).fields
            "total_size" 7 } ∧
      (∃ h4, (TBFHeader.init (mkHeaderBufferCk [] 100 0 7)).delete_tlv 5 =
        Except.ok h4)) ∧
    (((TBFHeader.init (le16 1 ++ List.replicate 74 0)).version = 1 ∨
        (TBFHeader.init (le16 1 ++ List.replicate 74 0)).valid = false) ∧
      dmem (TBFHeader.init (le16 1 ++ List.replicate 74 0)).fields "header_size" = false ∧
      (TBFHeader.init (le16 1 ++ List.replicate 74 0)).delete_tlv 5 =
        Except.error "KeyError: header_size") :=
  ⟨⟨by decide, by decide,
    (mutators_guard_only_set_flag (TBFHeader.init (mkHeaderBufferCk [] 100 0 7))
      "enable" true 999 "total_size" 7 5 (by decide)).1,
    (mutators_guard_only_set_flag (TBFHeader.init (mkHeaderBufferCk [] 100 0 7))
      "enable" true 999 "total_size" 7 5 (by decide)).2.1,
    (mutators_guard_only_set_flag (TBFHeader.init (mkHeaderBufferCk [] 100 0 7))
      "enable" true 999 "total_size" 7 5 (by decide)).2.2.1,
    (mutators_guard_only_set_flag (TBFHeader.init (mkHeaderBufferCk [] 100 0 7))
      "enable" true 999 "total_size" 7 5 (by decide)).2.2.2.2.2.1,
    (mutators_guard_only_set_flag (TBFHeader.init (mkHeaderBufferCk [] 100 0 7))
      "enable" true 999 "total_size" 7 5 (by decide)).2.2.2.2.2.2.1 (by decide)⟩,
   ⟨by decide, by decide,
    (mutators_guard_only_set_flag (TBFHeader.init (le16 1 ++ List.replicate 74 0))
      "enable" true 999 "total_size" 7 5 (by decide)).2.2.2.2.2.2.2.1 (by decide)⟩⟩

/-- C7: two mutating operations that change header state without setting
`modified`: `modify_tlv` on base fields (`tlvid == 0`) changes the fields
yet leaves `modified` false, and `adjust_starting_address` grows the
Program TLV's `protected_size` yet leaves `modified` false. -/
theorem modified_flag_not_set_code_bug :
    (okOr (exampleAppHeader.modify_tlv 0 "total_size" 5) exampleAppHeader).fields ≠
        exampleAppHeader.fields ∧
    (okOr (exampleAppHeader.modify_tlv 0 "total_size" 5) exampleAppHeader).modified = false ∧
    ((okOr (exampleAppHeader.adjust_starting_address 196608)
        exampleAppHeader)._get_binary_tlv).map protOf ≠
      (exampleAppHeader._get_binary_tlv).map protOf ∧
    (okOr (exampleAppHeader.adjust_starting_address 196608) exampleAppHeader).modified
        = false := by
  decide

/-- C8 (amended): when the version-2 parse loop meets a recognized
fixed-length TLV type (Main, Program, PicOption1, FixedAddress,
KernelVersion) whose declared length differs from the expected length, the
record is discarded entirely — nothing is appended to the TLV sequence
(not a not-valid variant instance and not an Unknown record) — and the
cursor advances past the padded length.  By contrast a
WriteableFlashRegions TLV with a wrong (non-multiple-of-8) length is
appended as a not-valid instance with no regions, and a PackageName TLV,
which has no expected length, is appended whenever it fits. -/
theorem parse_wrong_length_known_tlv_discarded
    (tipe expected ell : Nat) (rest : List Nat) (remaining : Nat)
    (hmem : (tipe, expected) ∈ [((1 : Nat), (12 : Nat)), (9, 20), (4, 40), (5, 8), (8, 4)])
    (hne : ell ≠ expected) (hell : ell < 65536) (hrem : 4 ≤ remaining) :
    (parseTlvLoop (le16 tipe ++ le16 ell ++ rest) remaining =
      parseTlvLoop (rest.drop (roundup ell 4)) (remaining - 4 - roundup ell 4)) ∧
    parseTlvLoop (le16 2 ++ le16 4 ++ [1, 2, 3, 4]) 8 =
      [TBFTLV.writeableFlashRegions ⟨false, []⟩] ∧
    parseTlvLoop (le16 3 ++ le16 5 ++ [104, 105, 33, 0, 0, 0, 0, 0]) 12 =
      [TBFTLV.packageName ⟨true, [104, 105, 33, 0, 0]⟩] := by
  refine ⟨?_, by decide, by decide⟩
  obtain ⟨r, rfl⟩ : ∃ r, remaining = r + 1 := ⟨remaining - 1, by omega⟩
  simp only [parseTlvLoop, parseTlvGo, if_pos hrem, List.append_assoc]
  simp only [List.mem_cons, List.not_mem_nil, or_false, Prod.mk.injEq] at hmem
  have hfuel : ∀ (b : List Nat),
      parseTlvGo r b (r - 3 - roundup ell 4) =
        parseTlvGo (r - 3 - roundup ell 4) b (r - 3 - roundup ell 4) := by
    intro b
    exact parseTlvGo_fuel r (r - 3 - roundup ell 4) b _ (by omega) (le_refl _)
  rcases hmem with ⟨rfl, rfl⟩ | ⟨rfl, rfl⟩ | ⟨rfl, rfl⟩ | ⟨rfl, rfl⟩ | ⟨rfl, rfl⟩ <;>
    [rw [u16_le16 1 _ (by norm_num)];
     rw [u16_le16 9 _ (by norm_num)];
     rw [u16_le16 4 _ (by norm_num)];
     rw [u16_le16 5 _ (by norm_num)];
     rw [u16_le16 8 _ (by norm_num)]] <;>
    rw [drop_le16, u16_le16 ell _ hell] <;>
    [rw [show (le16 1 ++ (le16 ell ++ rest)).drop 4 = rest from rfl];
     rw [show (le16 9 ++ (le16 ell ++ rest)).drop 4 = rest from rfl];
     rw [show (le16 4 ++ (le16 ell ++ rest)).drop 4 = rest from rfl];
     rw [show (le16 5 ++ (le16 ell ++ rest)).drop 4 = rest from rfl];
     rw [show (le16 8 ++ (le16 ell ++ rest)).drop 4 = rest from rfl]] <;>
    simp only [parseTlvEntry] <;>
    simp [hne, hfuel]

/-- C5 (amended): with a FixedAddress TLV (flash address `F`) and a binary
(Main/Program) TLV present, when `address + header_size + protected_size <
F` the call grows the binary TLV's `protected_size` and — unlike the claim
— also its `init_fn_offset`, each by exactly the difference, leaving every
other part of the header unchanged: the base fields, the
version/valid/app/modified flags, every TLV other than the mutated one, and
the mutated record's own variant kind, `valid` flag, `minimum_ram_size`,
`binary_end_offset` and `app_version`; when the sum exceeds `F` it raises
and changes nothing. -/
theorem adjust_starting_address_effects (h : TBFHeader) (address : Nat)
    (ft bt : TBFTLV)
    (hfix : h._get_tlv 5 = some ft)
    (hbin : h._get_binary_tlv = some bt)
    (hbt : isBinaryRecord bt = true) :
    (address + dget h.fields "header_size" + protOf bt < flashOf ft →
      ∃ h2, h.adjust_starting_address address = Except.ok h2 ∧
        h2.version = h.version ∧ h2.valid = h.valid ∧ h2.app = h.app ∧
        h2.modified = h.modified ∧ h2.fields = h.fields ∧
        (h2._get_binary_tlv).map protOf =
          some (protOf bt +
            (flashOf ft - (address + dget h.fields "header_size" + protOf bt))) ∧
        (h2._get_binary_tlv).map initFnOf =
          some (initFnOf bt +
            (flashOf ft - (address + dget h.fields "header_size" + protOf bt))) ∧
        (h2._get_binary_tlv).map TBFTLV.get_tlvid = some bt.get_tlvid ∧
        (h2._get_binary_tlv).map tlvValidOf = some (tlvValidOf bt) ∧
        (h2._get_binary_tlv).map ramOf = some (ramOf bt) ∧
        (h2._get_binary_tlv).map binEndOf = some (binEndOf bt) ∧
        (h2._get_binary_tlv).map appVerOf = some (appVerOf bt) ∧
        h2.tlvs.length = h.tlvs.length ∧
        (∀ j, j ≠ adjustTargetIdx h → h2.tlvs[j]? = h.tlvs[j]?)) ∧
    (flashOf ft < address + dget h.fields "header_size" + protOf bt →
      h.adjust_starting_address address =
        Except.error "Cannot shrink the header. This is a tockloader bug.") := by
  constructor
  · intro hlt
    have hadj : h.adjust_starting_address address = Except.ok
        { h with tlvs := (updFirst
            (fun t => t.get_tlvid == (if (h._get_tlv 9).isSome then 9 else 1))
            (bumpMainProgramFields
              (flashOf ft - (address + dget h.fields "header_size" + protOf bt)))
            h.tlvs) } := by
      simp only [TBFHeader.adjust_starting_address, hfix, hbin]
      rw [if_neg (by simp only [beq_iff_eq]; omega)]
      rw [if_pos hlt]
    have hbin2 : ({ h with tlvs := (updFirst
          (fun t => t.get_tlvid == (if (h._get_tlv 9).isSome then 9 else 1))
          (bumpMainProgramFields
            (flashOf ft - (address + dget h.fields "header_size" + protOf bt)))
          h.tlvs) } : TBFHeader)._get_binary_tlv =
        some (bumpMainProgramFields
          (flashOf ft - (address + dget h.fields "header_size" + protOf bt)) bt) := by
      rcases h9 : h._get_tlv 9 with _ | tp
      · have hbt1 : h._get_tlv 1 = some bt := by
          simp only [TBFHeader._get_binary_tlv, h9] at hbin
          exact hbin
        have hif1 : (if ((none : Option TBFTLV).isSome = true) then (9 : Nat) else 1)
            = 1 := rfl
        rw [hif1]
        simp only [TBFHeader._get_binary_tlv, TBFHeader._get_tlv] at hbt1 ⊢
        rw [find?_updFirst_other (fun t => by rw [get_tlvid_bump])
          (fun t ht => by
            simp only [beq_iff_eq] at ht
            simp only [beq_eq_false_iff_ne, ne_eq]
            omega)]
        simp only [TBFHeader._get_tlv] at h9
        rw [h9]
        rw [find?_updFirst_same (fun t ht => by rw [get_tlvid_bump]; exact ht)]
        rw [hbt1]
        rfl
      · have hbt9 : bt = tp := by
          simp only [TBFHeader._get_binary_tlv, h9, Option.some.injEq] at hbin
          exact hbin.symm
        subst hbt9
        have hif9 : (if ((some bt : Option TBFTLV).isSome = true) then (9 : Nat) else 1)
            = 9 := rfl
        rw [hif9]
        simp only [TBFHeader._get_binary_tlv, TBFHeader._get_tlv] at h9 ⊢
        rw [find?_updFirst_same (fun t ht => by rw [get_tlvid_bump]; exact ht)]
        rw [h9]
        rfl
    refine ⟨_, hadj, rfl, rfl, rfl, rfl, rfl, ?_, ?_, ?_, ?_, ?_, ?_, ?_, ?_, ?_⟩
    · rw [hbin2]
      simp [protOf_bump _ hbt]
    · rw [hbin2]
      simp [initFnOf_bump _ hbt]
    · rw [hbin2]
      simp [get_tlvid_bump]
    · rw [hbin2]
      simp [tlvValidOf_bump]
    · rw [hbin2]
      simp [ramOf_bump]
    · rw [hbin2]
      simp [binEndOf_bump]
    · rw [hbin2]
      simp [appVerOf_bump]
    · exact updFirst_length _ _ h.tlvs
    · intro j hj
      exact updFirst_getElem?_ne _ _ h.tlvs j hj
  · intro hgt
    simp only [TBFHeader.adjust_starting_address, hfix, hbin]
    rw [if_neg (by simp only [beq_iff_eq]; omega)]
    rw [if_neg (by omega)]

/-- C5 counterexample: on a concrete header with a FixedAddress TLV and a
Program TLV, with `address + header_size + protected_size < flash address`,
`adjust_starting_address` changes `init_fn_offset` — the claim says every
field other than `protected_size` is unchanged. -/
theorem adjust_starting_address_claim_counterexample :
    (exampleAppHeader._get_tlv 5).isSome = true ∧
    196608 + dget exampleAppHeader.fields "header_size" +
        protOf (TBFTLV.program ⟨true, 128, 0, 1024, 500, 1⟩) < 262144 ∧
    ((okOr (exampleAppHeader.adjust_starting_address 196608)
        exampleAppHeader)._get_binary_tlv).map initFnOf ≠
      (exampleAppHeader._get_binary_tlv).map initFnOf := by
  decide

/-- C5 witness. -/
theorem adjust_starting_address_effects_witness :
    (exampleAppHeader._get_tlv 5 = some (.fixedAddress ⟨true, 536870912, 262144⟩) ∧
     exampleAppHeader._get_binary_tlv = some (.program ⟨true, 128, 0, 1024, 500, 1⟩) ∧
     isBinaryRecord (TBFTLV.program ⟨true, 128, 0, 1024, 500, 1⟩) = true) ∧
    ((196608 + dget exampleAppHeader.fields "header_size" +
        protOf (TBFTLV.program ⟨true, 128, 0, 1024, 500, 1⟩) <
          flashOf (TBFTLV.fixedAddress ⟨true, 536870912, 262144⟩) →
      ∃ h2, exampleAppHeader.adjust_starting_address 196608 = Except.ok h2 ∧
        h2.version = exampleAppHeader.version ∧ h2.valid = exampleAppHeader.valid ∧
        h2.app = exampleAppHeader.app ∧
        h2.modified = exampleAppHeader.modified ∧ h2.fields = exampleAppHeader.fields ∧
        (h2._get_binary_tlv).map protOf =
          some (protOf (TBFTLV.program ⟨true, 128, 0, 1024, 500, 1⟩) +
            (flashOf (TBFTLV.fixedAddress ⟨true, 536870912, 262144⟩) -
              (196608 + dget exampleAppHeader.fields "header_size" +
                protOf (TBFTLV.program ⟨true, 128, 0, 1024, 500, 1⟩)))) ∧
        (h2._get_binary_tlv).map initFnOf =
          some (initFnOf (TBFTLV.program ⟨true, 128, 0, 1024, 500, 1⟩) +
            (flashOf (TBFTLV.fixedAddress ⟨true, 536870912, 262144⟩) -
              (196608 + dget exampleAppHeader.fields "header_size" +
                protOf (TBFTLV.program ⟨true, 128, 0, 1024, 500, 1⟩)))) ∧
        (h2._get_binary_tlv).map TBFTLV.get_tlvid =
          some (TBFTLV.program ⟨true, 128, 0, 1024, 500, 1⟩).get_tlvid ∧
        (h2._get_binary_tlv).map tlvValidOf =
          some (tlvValidOf (TBFTLV.program ⟨true, 128, 0, 1024, 500, 1⟩)) ∧
        (h2._get_binary_tlv).map ramOf =
          some (ramOf (TBFTLV.program ⟨true, 128, 0, 1024, 500, 1⟩)) ∧
        (h2._get_binary_tlv).map binEndOf =
          some (binEndOf (TBFTLV.program ⟨true, 128, 0, 1024, 500, 1⟩)) ∧
        (h2._get_binary_tlv).map appVerOf =
          some (appVerOf (TBFTLV.program ⟨true, 128, 0, 1024, 500, 1⟩)) ∧
        h2.tlvs.length = exampleAppHeader.tlvs.length ∧
        (∀ j, j ≠ adjustTargetIdx exampleAppHeader →
          h2.tlvs[j]? = exampleAppHeader.tlvs[j]?)) ∧
     (flashOf (TBFTLV.fixedAddress ⟨true, 536870912, 262144⟩) <
        196608 + dget exampleAppHeader.fields "header_size" +
          protOf (TBFTLV.program ⟨true, 128, 0, 1024, 500, 1⟩) →
      exampleAppHeader.adjust_starting_address 196608 =
        Except.error "Cannot shrink the header. This is a tockloader bug.")) :=
  ⟨⟨by decide, by decide, by decide⟩,
    adjust_starting_address_effects exampleAppHeader 196608
      (.fixedAddress ⟨true, 536870912, 262144⟩) (.program ⟨true, 128, 0, 1024, 500, 1⟩)
      (by decide) (by decide) (by decide)⟩

/-- C8 counterexample: a version-2 application header whose single TLV is a
Main entry with declared length 4 (expected 12): the record is not kept as
a not-valid Main instance — the TLV sequence comes out empty. -/
theorem parse_wrong_length_kept_counterexample :
    (TBFHeader.init ([2, 0, 24, 0] ++ le32 512 ++ le32 1 ++ le32 0 ++
        [1, 0, 4, 0] ++ le32 99)).app = true ∧
    (TBFHeader.init ([2, 0, 24, 0] ++ le32 512 ++ le32 1 ++ le32 0 ++
        [1, 0, 4, 0] ++ le32 99)).tlvs = [] := by
  decide

/-- C8 witness. -/
theorem parse_wrong_length_known_tlv_discarded_witness :
    (((1 : Nat), (12 : Nat)) ∈
        [((1 : Nat), (12 : Nat)), (9, 20), (4, 40), (5, 8), (8, 4)] ∧
      (4 : Nat) ≠ 12 ∧ (4 : Nat) < 65536 ∧ (4 : Nat) ≤ 12) ∧
    ((parseTlvLoop (le16 1 ++ le16 4 ++ [9, 9, 9, 9]) 12 =
        parseTlvLoop (([9, 9, 9, 9] : List Nat).drop (roundup 4 4))
          (12 - 4 - roundup 4 4)) ∧
      parseTlvLoop (le16 2 ++ le16 4 ++ [1, 2, 3, 4]) 8 =
        [TBFTLV.writeableFlashRegions ⟨false, []⟩] ∧
      parseTlvLoop (le16 3 ++ le16 5 ++ [104, 105, 33, 0, 0, 0, 0, 0]) 12 =
        [TBFTLV.packageName ⟨true, [104, 105, 33, 0, 0]⟩]) :=
  ⟨⟨by decide, by decide, by decide, by decide⟩,
    parse_wrong_length_known_tlv_discarded 1 12 4 [9, 9, 9, 9] 12
      (by decide) (by decide) (by decide) (by decide)⟩

/-- C9: for a hash-type credential (SHA256/SHA384/SHA512), `verify` leaves
`verified` unchanged when no covered blob is supplied, sets it to `yes`
when the body equals the recomputed digest of the blob, and to `no` when it
differs. -/
theorem credentials_verify_hash (H : HashFns) (keys : List RSAKey)
    (c : TBFFooterTLVCredentials) (blob : List Nat) (ct : Nat)
    (hct : ct = 6 ∨ ct = 7 ∨ ct = 8) (hc : c.credentials_type = some ct) :
    ((c.verify H keys none).verified = c.verified) ∧
    (c.buffer = hashFor H ct blob → (c.verify H keys (some blob)).verified = "yes") ∧
    (c.buffer ≠ hashFor H ct blob → (c.verify H keys (some blob)).verified = "no") := by
  rcases hct with rfl | rfl | rfl <;>
    refine ⟨rfl, fun heq => ?_, fun hne => ?_⟩ <;>
    simp only [TBFFooterTLVCredentials.verify, hc, hashFor] at * <;>
    simp_all

/-- C9 witness. -/
theorem credentials_verify_hash_witness :
    (((6 : Nat) = 6 ∨ (6 : Nat) = 7 ∨ (6 : Nat) = 8) ∧
     (⟨false, "unknown", some 6, [1, 2]⟩ : TBFFooterTLVCredentials).credentials_type =
        some 6) ∧
    (((⟨false, "unknown", some 6, [1, 2]⟩ : TBFFooterTLVCredentials).verify
        trivialHashFns [] none).verified =
      (⟨false, "unknown", some 6, [1, 2]⟩ : TBFFooterTLVCredentials).verified ∧
     ((⟨false, "unknown", some 6, [1, 2]⟩ : TBFFooterTLVCredentials).buffer =
        hashFor trivialHashFns 6 [] →
      ((⟨false, "unknown", some 6, [1, 2]⟩ : TBFFooterTLVCredentials).verify
        trivialHashFns [] (some [])).verified = "yes") ∧
     ((⟨false, "unknown", some 6, [1, 2]⟩ : TBFFooterTLVCredentials).buffer ≠
        hashFor trivialHashFns 6 [] →
      ((⟨false, "unknown", some 6, [1, 2]⟩ : TBFFooterTLVCredentials).verify
        trivialHashFns [] (some [])).verified = "no")) :=
  ⟨⟨Or.inl rfl, rfl⟩,
    credentials_verify_hash trivialHashFns [] ⟨false, "unknown", some 6, [1, 2]⟩ [] 6
      (Or.inl rfl) rfl⟩

/-- C10: the WriteableFlashRegions constructor parses the 8-byte
(offset, length) pairs when the buffer length is a multiple of 8 but never
sets `valid` to true, for any input. -/
theorem wfr_constructor_never_valid (buffer : List Nat) :
    (TBFTLVWriteableFlashRegions.init buffer).valid = false ∧
    (buffer.length % 8 = 0 →
      (TBFTLVWriteableFlashRegions.init buffer).writeable_flash_regions =
        parseWfrPairs (buffer.length / 8) buffer) := by
  refine ⟨rfl, fun hm => ?_⟩
  simp [TBFTLVWriteableFlashRegions.init, hm]

/-- C10 witness. -/
theorem wfr_constructor_never_valid_witness :
    (TBFTLVWriteableFlashRegions.init [1, 0, 0, 0, 2, 0, 0, 0]).valid = false ∧
    (TBFTLVWriteableFlashRegions.init [1, 0, 0, 0, 2, 0, 0, 0]).writeable_flash_regions =
      parseWfrPairs (([1, 0, 0, 0, 2, 0, 0, 0] : List Nat).length / 8)
        [1, 0, 0, 0, 2, 0, 0, 0] :=
  ⟨(wfr_constructor_never_valid [1, 0, 0, 0, 2, 0, 0, 0]).1,
    (wfr_constructor_never_valid [1, 0, 0, 0, 2, 0, 0, 0]).2 (by decide)⟩

/-- C2 counterexample: a well-formed v2 header buffer whose Main TLV has
`protected_size = 4`: `get_binary` after parsing appends 4 zero bytes, so
it is not exactly the original buffer. -/
theorem tbf_v2_roundtrip_strict_counterexample :
    ([TLVSpec.mainS 32 4 1024].all TLVSpec.wfb = true) ∧
    (TBFHeader.init (mkHeaderBuffer [TLVSpec.mainS 32 4 1024] 512 1)).get_binary ≠
      mkHeaderBuffer [TLVSpec.mainS 32 4 1024] 512 1 := by
  decide

/-- C2 witness. -/
theorem tbf_v2_roundtrip_with_protected_padding_witness :
    ([TLVSpec.mainS 32 0 1024].all TLVSpec.wfb = true ∧
     (512 : Nat) < 4294967296 ∧ (1 : Nat) < 4294967296 ∧
     16 + (tlvBytes [TLVSpec.mainS 32 0 1024]).length < 65536) ∧
    (TBFHeader.init (mkHeaderBuffer [TLVSpec.mainS 32 0 1024] 512 1)).get_binary =
      mkHeaderBuffer [TLVSpec.mainS 32 0 1024] 512 1 ++
        List.replicate
          (protPadOf (TBFHeader.init (mkHeaderBuffer [TLVSpec.mainS 32 0 1024] 512 1))) 0 :=
  ⟨⟨by decide, by decide, by decide, by decide⟩,
    tbf_v2_roundtrip_with_protected_padding [TLVSpec.mainS 32 0 1024] 512 1
      (by decide) (by decide) (by decide) (by decide)⟩

end Tbfh
